import Mathlib

/-!
RNBOMetasound: descriptor introspection, external-data loader, transport diffing

A shallow embedding of `Source/RNBOMetasound/Private/RNBOOperator.h`.

* The patch description is a JSON document (`RNBO::Json`).  The bridge reads it through
  the container's const accessors; those accessors are partial (a lookup can be
  undefined, a typed read can throw), so every embedded function returns an `Option`,
  `none` standing for "throws or is undefined".
* Floating-point payloads are modelled by the rational numbers they denote.
* Background tasks are modelled by task identifiers handed out by a pipe; whether a task
  has completed at the moment the loader looks at it is an explicit input.
* The engine's parameter interface is a parameter of the input-parameter section; the
  host's trigger and MIDI buffer types are kept as the lists of what they recorded.
-/

namespace RNBOMetasound

/-! ## The JSON container -/

/-- The JSON value type behind `RNBO::Json`.  `int` covers the signed and unsigned
integer payloads, `float` the floating payload (a finite double, kept as the rational it
denotes).  An object is kept as its list of entries, lookups taking the first match. -/
inductive Json where
  | null : Json
  | bool (b : Bool) : Json
  | int (i : Int) : Json
  | float (x : ℚ) : Json
  | str (s : String) : Json
  | arr (xs : List Json) : Json
  | obj (kvs : List (String × Json)) : Json

namespace Json

/-- First entry stored under `key` in an entry list. -/
def find (key : String) : List (String × Json) → Option Json
  | [] => none
  | (k, v) :: rest => if k = key then some v else find key rest

/-- The const accessor `j[key]`: defined on an object that holds `key`.  On an object
without the key the container's const accessor is undefined, on a non-object it throws;
both are `none`. -/
def lookup (j : Json) (key : String) : Option Json :=
  match j with
  | obj kvs => find key kvs
  | _ => none

/-- The member test `j.contains(key)`: false on anything that is not an object. -/
def contains (j : Json) (key : String) : Bool :=
  match j with
  | obj kvs => (find key kvs).isSome
  | _ => false

/-- The non-const accessor `e[i]` on a local copy that is an array: an index past the
end extends the copy with `null` entries, so the read yields `null` there. -/
def idx (xs : List Json) (i : Nat) : Json :=
  xs.getD i null

/-- Type test `is_array()`. -/
def is_array : Json → Bool
  | arr _ => true
  | _ => false

/-- Type test `is_object()`. -/
def is_object : Json → Bool
  | obj _ => true
  | _ => false

/-- Type test `is_boolean()`. -/
def is_boolean : Json → Bool
  | bool _ => true
  | _ => false

/-- Type test `is_number()`: an integer or a floating payload. -/
def is_number : Json → Bool
  | int _ => true
  | float _ => true
  | _ => false

/-- Two's-complement wrap of an integer into the 32-bit signed range. -/
def wrapInt32 (i : Int) : Int :=
  (i + 2 ^ 31) % 2 ^ 32 - 2 ^ 31

/-- Truncation toward zero, the conversion of a floating value to an integer. -/
def truncQ (x : ℚ) : Int :=
  if 0 ≤ x then ⌊x⌋ else ⌈x⌉

/-- The typed read `get<int>()`: an integer payload is narrowed to 32 bits, a floating
payload is truncated toward zero (undefined when the result does not fit), a boolean
reads as 0 or 1, anything else throws. -/
def getInt : Json → Option Int
  | int i => some (wrapInt32 i)
  | float x =>
    if -(2 ^ 31 : Int) ≤ truncQ x ∧ truncQ x < 2 ^ 31 then some (truncQ x) else none
  | bool b => some (if b then 1 else 0)
  | _ => none

/-- The typed read `get<bool>()`: throws on anything but a boolean. -/
def getBool : Json → Option Bool
  | bool b => some b
  | _ => none

/-- The typed read `get<std::string>()`: throws on anything but a string. -/
def getString : Json → Option String
  | str s => some s
  | _ => none

/-- The exact value read by `get<float>()`/`get<double>()` before any rounding: the
number itself, 0 or 1 for a boolean, a throw otherwise. -/
def getNum : Json → Option ℚ
  | int i => some (i : ℚ)
  | float x => some x
  | bool b => some (if b then 1 else 0)
  | _ => none

/-- Elements visited by a range-for over a JSON value: the elements of an array, the
values of an object, nothing for `null`, and the value itself for any other value. -/
def items : Json → List Json
  | null => []
  | arr xs => xs
  | obj kvs => kvs.map Prod.snd
  | j => [j]

end Json

/-- Does the value `x`, rounded to single precision (round to nearest, ties to even),
compare equal to `0.0f`?  Exactly the values of magnitude at most `2^-150`, half the
smallest positive single-precision number, round to (plus or minus) zero. -/
def f32EqZero (x : ℚ) : Bool :=
  decide (|x| ≤ 1 / 2 ^ 150)

/-- Does the value `x`, rounded to single precision (round to nearest, ties to even),
compare equal to `1.0f`?  The neighbours of `1.0f` are `1 - 2^-24` and `1 + 2^-23`, so
exactly the values between the two midpoints round to it. -/
def f32EqOne (x : ℚ) : Bool :=
  decide (1 - 1 / 2 ^ 25 ≤ x ∧ x ≤ 1 + 1 / 2 ^ 24)

/-! ## Descriptor introspection -/

open Json

/-- `IsBoolParam`: two steps and an `enumValues` array whose first two entries are
numbers reading, as single-precision floats, `0.0f` and `1.0f`. -/
def IsBoolParam (p : Json) : Option Bool := do
  let steps ← (← p.lookup "steps").getInt
  if steps = 2 then
    let ev ← p.lookup "enumValues"
    match ev with
    | arr e =>
      if (idx e 0).is_number && (idx e 1).is_number then do
        let e0 ← (idx e 0).getNum
        if f32EqZero e0 then do
          let e1 ← (idx e 1).getNum
          pure (f32EqOne e1)
        else pure false
      else pure false
    | _ => pure false
  else pure false

/-- `IsIntParam`: not boolean, and flagged `isEnum` (read only when not boolean). -/
def IsIntParam (p : Json) : Option Bool := do
  let b ← IsBoolParam p
  if !b then (← p.lookup "isEnum").getBool else pure false

/-- `IsFloatParam`: neither boolean nor integer (the integer test is evaluated only
when the boolean test is false). -/
def IsFloatParam (p : Json) : Option Bool := do
  let b ← IsBoolParam p
  if b then pure false
  else do
    let i ← IsIntParam p
    pure (!(b || i))

/-- `IsInputParam`: the boolean `meta.in` when `meta` is an object and `in` a boolean,
`true` otherwise. -/
def IsInputParam (p : Json) : Option Bool := do
  let m ← p.lookup "meta"
  if m.is_object then do
    let i ← m.lookup "in"
    if i.is_boolean then i.getBool else pure true
  else pure true

/-- `IsOutputParam`: the boolean `meta.out` when `meta` is an object and `out` a
boolean, `false` otherwise. -/
def IsOutputParam (p : Json) : Option Bool := do
  let m ← p.lookup "meta"
  if m.is_object then do
    let o ← m.lookup "out"
    if o.is_boolean then o.getBool else pure false
  else pure false

/-- The enumerated values of `p` are exactly the two values `0.0` and `1.0`: an array of
two numbers, no more, no fewer, no others (the property as the description states it). -/
def enumValuesExactlyZeroOne (p : Json) : Bool :=
  match p.lookup "enumValues" with
  | some (arr [a, b]) =>
    a.is_number && b.is_number && decide (a.getNum = some 0) && decide (b.getNum = some 1)
  | _ => false

/-- The first two enumerated values of `p` are numbers that read, as single-precision
floats, `0.0f` and `1.0f`; entries past the second are not looked at. -/
def firstTwoEnumValuesZeroOne (p : Json) : Prop :=
  ∃ e x0 x1, p.lookup "enumValues" = some (arr e) ∧
    (idx e 0).is_number = true ∧ (idx e 1).is_number = true ∧
    (idx e 0).getNum = some x0 ∧ (idx e 1).getNum = some x1 ∧
    f32EqZero x0 = true ∧ f32EqOne x1 = true

/-- The step count `p["steps"].get<int>()`. -/
def stepsOf (p : Json) : Option Int :=
  (p.lookup "steps").bind getInt

/-- `RNBO::ParameterIndex` is an unsigned 64-bit index; the cast from `int` wraps. -/
abbrev ParameterIndex := Nat

/-- The cast `static_cast<RNBO::ParameterIndex>(int)`. -/
def toParameterIndex (i : Int) : ParameterIndex :=
  (i % 2 ^ 64).toNat

/-- `FRNBOMetasoundParam`: the host-facing description of one port.  `WITH_EDITOR`
builds keep the tooltip and display name, other builds store empty texts.  The initial
value is kept as the exact number read from the schema. -/
structure FRNBOMetasoundParam where
  mName : String
  mInitialValue : ℚ
  mTooltip : String
  mDisplayName : String
deriving DecidableEq

/-- The constructor `FRNBOMetasoundParam(name, tooltip, displayName, initialValue)`. -/
def FRNBOMetasoundParam.new (WITH_EDITOR : Bool) (name tooltip displayName : String)
    (initialValue : ℚ) : FRNBOMetasoundParam :=
  if WITH_EDITOR then ⟨name, initialValue, tooltip, displayName⟩
  else ⟨name, initialValue, "", ""⟩

/-- A table `std::unordered_map<RNBO::ParameterIndex, FRNBOMetasoundParam>`, kept as its
list of entries. -/
abbrev ParamTable := List (ParameterIndex × FRNBOMetasoundParam)

/-- The key test `find(k) != end()`. -/
def hasKey {β : Type} (k : ParameterIndex) (t : List (ParameterIndex × β)) : Bool :=
  t.any (fun e => e.1 == k)

/-- The insertion `emplace(k, v)`: nothing happens when the key is already there. -/
def emplace {β : Type} (t : List (ParameterIndex × β)) (k : ParameterIndex) (v : β) :
    List (ParameterIndex × β) :=
  if hasKey k t then t else t ++ [(k, v)]

/-- The test `p["type"].get<std::string>().compare("ParameterTypeNumber") != 0` opening
the loop body of `NumericParams`, negated: is `p` a numeric parameter? -/
def typeIsNumber (p : Json) : Option Bool := do
  let ty ← (← p.lookup "type").getString
  pure (decide (ty = "ParameterTypeNumber"))

/-- The test `p.contains("visible") && p["visible"].get<bool>() == false`: is `p`
explicitly marked not visible? -/
def markedHidden (p : Json) : Option Bool :=
  if p.contains "visible" then do
    let v ← (← p.lookup "visible").getBool
    pure (v == false)
  else pure false

/-- The reads of `index`, `name`, `displayName` (replaced by the name when empty) and
`paramId`, in the order of the loop body. -/
def paramFields (p : Json) : Option (ParameterIndex × String × String × String) := do
  let index := toParameterIndex (← (← p.lookup "index").getInt)
  let name ← (← p.lookup "name").getString
  let displayName ← (← p.lookup "displayName").getString
  let displayName := if displayName.length = 0 then name else displayName
  let id ← (← p.lookup "paramId").getString
  pure (index, name, displayName, id)

/-- One round of the loop of `NumericParams` on the parameter `p`, with the callback
`func` threading its captured state `s`: a parameter whose type is not
`ParameterTypeNumber`, or that holds `visible` with the value `false`, is skipped. -/
def NumericParamsStep {σ : Type}
    (func : σ → Json → ParameterIndex → String → String → String → Option σ)
    (s : σ) (p : Json) : Option σ :=
  match typeIsNumber p with
  | none => none
  | some false => some s
  | some true =>
    match markedHidden p with
    | none => none
    | some true => some s
    | some false =>
      match paramFields p with
      | none => none
      | some (index, name, displayName, id) => func s p index name displayName id

/-- The loop of `NumericParams` over a list of parameters. -/
def NumericParamsLoop {σ : Type}
    (func : σ → Json → ParameterIndex → String → String → String → Option σ) :
    σ → List Json → Option σ
  | s, [] => some s
  | s, p :: rest => do
    let s1 ← NumericParamsStep func s p
    NumericParamsLoop func s1 rest

/-- `FRNBOMetasoundParam::NumericParams`: calls `func` on every visible numeric entry of
`desc["parameters"]`, in order. -/
def NumericParams {σ : Type} (desc : Json)
    (func : σ → Json → ParameterIndex → String → String → String → Option σ)
    (init : σ) : Option σ := do
  let ps ← desc.lookup "parameters"
  NumericParamsLoop func init ps.items

/-- The callback of `NumericParamsFiltered`: when `filter` accepts `p`, read its initial
value and `emplace` the entry under the parameter's index. -/
def filteredCallback (WITH_EDITOR : Bool) (filter : Json → Option Bool)
    (params : ParamTable) (p : Json) (index : ParameterIndex)
    (name displayName id : String) : Option ParamTable :=
  match filter p with
  | none => none
  | some false => some params
  | some true =>
    match (p.lookup "initialValue").bind getNum with
    | none => none
    | some initialValue =>
      some (emplace params index
        (FRNBOMetasoundParam.new WITH_EDITOR name id displayName initialValue))

/-- `FRNBOMetasoundParam::NumericParamsFiltered`. -/
def NumericParamsFiltered (WITH_EDITOR : Bool) (desc : Json)
    (filter : Json → Option Bool) : Option ParamTable :=
  NumericParams desc (filteredCallback WITH_EDITOR filter) []

/-- The conjunction `a(p) && b(p)` of two tests, the second evaluated only when the
first holds. -/
def andThen (a b : Json → Option Bool) (p : Json) : Option Bool := do
  if (← a p) then b p else pure false

/-- `FRNBOOperator::InputFloatParams`. -/
def InputFloatParams (WITH_EDITOR : Bool) (desc : Json) : Option ParamTable :=
  NumericParamsFiltered WITH_EDITOR desc (andThen IsInputParam IsFloatParam)

/-- `FRNBOOperator::InputIntParams`. -/
def InputIntParams (WITH_EDITOR : Bool) (desc : Json) : Option ParamTable :=
  NumericParamsFiltered WITH_EDITOR desc (andThen IsInputParam IsIntParam)

/-- `FRNBOOperator::InputBoolParams`. -/
def InputBoolParams (WITH_EDITOR : Bool) (desc : Json) : Option ParamTable :=
  NumericParamsFiltered WITH_EDITOR desc (andThen IsInputParam IsBoolParam)

/-- `FRNBOOperator::OutputFloatParams`. -/
def OutputFloatParams (WITH_EDITOR : Bool) (desc : Json) : Option ParamTable :=
  NumericParamsFiltered WITH_EDITOR desc (andThen IsOutputParam IsFloatParam)

/-- `FRNBOOperator::OutputIntParams`. -/
def OutputIntParams (WITH_EDITOR : Bool) (desc : Json) : Option ParamTable :=
  NumericParamsFiltered WITH_EDITOR desc (andThen IsOutputParam IsIntParam)

/-- `FRNBOOperator::OutputBoolParams`. -/
def OutputBoolParams (WITH_EDITOR : Bool) (desc : Json) : Option ParamTable :=
  NumericParamsFiltered WITH_EDITOR desc (andThen IsOutputParam IsBoolParam)

/-- Is the reference `p` skipped by `DataRef`?  It is when it holds a `tag` and that tag
is not `buffer~`. -/
def dataRefSkipped (p : Json) : Option Bool :=
  if p.contains "tag" then do
    let tag ← (← p.lookup "tag").getString
    pure (decide (tag ≠ "buffer~"))
  else pure false

/-- The loop of `DataRef` over the declared references. -/
def DataRefLoop (WITH_EDITOR : Bool) :
    List FRNBOMetasoundParam → List Json → Option (List FRNBOMetasoundParam)
  | params, [] => some params
  | params, p :: rest => do
    if (← dataRefSkipped p) then DataRefLoop WITH_EDITOR params rest
    else do
      let id ← (← p.lookup "id").getString
      DataRefLoop WITH_EDITOR (params ++ [FRNBOMetasoundParam.new WITH_EDITOR id id id 0]) rest

/-- `FRNBOMetasoundParam::DataRef`: one entry per supported external-data reference of
`desc["externalDataRefs"]`, in order. -/
def DataRef (WITH_EDITOR : Bool) (desc : Json) : Option (List FRNBOMetasoundParam) := do
  let refs ← desc.lookup "externalDataRefs"
  DataRefLoop WITH_EDITOR [] refs.items

/-- The table entry `e` was built from a parameter of `desc["parameters"]` that has the
type `ParameterTypeNumber`, is not marked `visible = false`, and is accepted by
`filter`: `e` is keyed by that parameter's index and named by its name. -/
def EntryOf (desc : Json) (filter : Json → Option Bool)
    (e : ParameterIndex × FRNBOMetasoundParam) : Prop :=
  ∃ ps p i name, desc.lookup "parameters" = some ps ∧ p ∈ ps.items ∧
    p.lookup "type" = some (str "ParameterTypeNumber") ∧
    p.lookup "visible" ≠ some (Json.bool false) ∧
    filter p = some true ∧
    (p.lookup "index").bind getInt = some i ∧ e.1 = toParameterIndex i ∧
    p.lookup "name" = some (str name) ∧ e.2.mName = name

/-- The reference `p` is buffer-typed: it carries the tag `buffer~` (the property as the
description states it). -/
def isBufferTyped (p : Json) : Bool :=
  match p.lookup "tag" with
  | some (str t) => decide (t = "buffer~")
  | _ => false

/-- The reference `p` is kept by `DataRef`: it has no `tag`, or its tag is `buffer~`. -/
def dataRefKept (p : Json) : Bool :=
  match p.lookup "tag" with
  | none => true
  | some (str t) => decide (t = "buffer~")
  | some _ => false

/-- The id of a reference, read as a string (empty when there is none). -/
def dataRefId (p : Json) : String :=
  match p.lookup "id" with
  | some (str id) => id
  | _ => ""

/-- The entry `DataRef` makes for the reference `p`: name, tooltip and display name are
its id. -/
def dataRefEntry (WITH_EDITOR : Bool) (p : Json) : FRNBOMetasoundParam :=
  FRNBOMetasoundParam.new WITH_EDITOR (dataRefId p) (dataRefId p) (dataRefId p) 0

/-- A reference that `DataRef` can read: its tag, when it has one, is a string, and it
has a string id unless it is skipped. -/
def dataRefReadable (p : Json) : Prop :=
  (∀ t, p.lookup "tag" = some t → ∃ s, t = str s) ∧
  (dataRefKept p = true → ∃ id, p.lookup "id" = some (str id))

/-- A schema with a hidden numeric parameter, a visible numeric parameter and a
parameter that is not numeric. -/
def schemaWithHidden : Json :=
  obj [("parameters", arr [
    obj [("type", str "ParameterTypeNumber"), ("index", int 0), ("name", str "gain"),
      ("displayName", str ""), ("paramId", str "gain"), ("visible", Json.bool false),
      ("initialValue", int 1)],
    obj [("type", str "ParameterTypeNumber"), ("index", int 1), ("name", str "freq"),
      ("displayName", str "Frequency"), ("paramId", str "osc/freq"),
      ("visible", Json.bool true), ("initialValue", int 440)],
    obj [("type", str "ParameterTypeList"), ("index", int 2)]])]

/-- A schema declaring three external-data references: one without a tag, one tagged
`buffer~` and one tagged `data`. -/
def schemaWithRefs : Json :=
  obj [("externalDataRefs", arr [
    obj [("id", str "drums")],
    obj [("id", str "loop"), ("tag", str "buffer~")],
    obj [("id", str "table"), ("tag", str "data")]])]

/-! ## The external-data loader -/

/-- `FObjectKey`: the identity of the asset object behind a wave proxy. -/
abbrev FObjectKey := Nat

/-- Identifier of a task launched on the loader pipe. -/
abbrev TaskId := Nat

/-- `UE::Tasks::FTask`: a task handle, `none` being the invalid (default) handle. -/
abbrev FTask := Option TaskId

/-- The test `t.IsValid() && !t.IsCompleted()` on a handle, `completed` telling which
launched tasks have completed at the moment of the test. -/
def validAndRunning (completed : TaskId → Bool) : FTask → Bool
  | some i => !completed i
  | none => false

/-- Two's-complement wrap of an integer into the 16-bit signed range. -/
def wrapInt16 (i : Int) : Int :=
  (i + 2 ^ 15) % 2 ^ 16 - 2 ^ 15

/-- `INT16_MAX`. -/
def INT16_MAX : Int := 32767

/-- What the decode task reads from a valid sound-wave proxy and from the decoder made
for its format.  `hasFactory` is the outcome of the format lookup; `streamInfo` and
`readInfo` are the outcomes of `StreamCompressedInfo` and `ReadCompressedInfo` (the
sample data size in bytes on success); `streamWords` and `readWords` are the 16-bit
words the decoder writes to the front of the zeroed buffer; `readOk` is the outcome of
`ReadCompressedData`. -/
structure FSoundWaveProxy where
  key : FObjectKey
  sampleRate : ℚ
  numChannels : Nat
  hasFactory : Bool
  isStreaming : Bool
  streamInfo : Option Nat
  streamWords : List Int
  readInfo : Option Nat
  readOk : Bool
  readWords : List Int
deriving DecidableEq

/-- The view `Data` of a zeroed buffer of `size` bytes after the decoder wrote `words`
to its front: `size / sizeof(int16)` samples. -/
def int16View (size : Nat) (words : List Int) : List Int :=
  ((words.map wrapInt16) ++ List.replicate (size / 2) 0).take (size / 2)

/-- The normalisation `static_cast<float>(s) / static_cast<float>(INT16_MAX)` of one
sample.  The single-precision quotient is modelled by the exact quotient (rounding to
nearest is monotone and leaves `-1` and `1` fixed, so bounds by them carry over). -/
def normalizeSample (s : Int) : ℚ :=
  (s : ℚ) / (INT16_MAX : ℚ)

/-- The data handed to `setExternalData`: the samples, their size in bytes and the
buffer type (channel count, sample rate). -/
structure ExternalData where
  samples : List ℚ
  sizeInBytes : Nat
  channels : Nat
  sampleRate : ℚ
deriving DecidableEq

/-- The part of `RNBO::CoreObject` the loader touches: the data installed per
external-data id. -/
abbrev CoreObject := List (String × ExternalData)

/-- The call `CoreObject.setExternalData(id, ...)`: the slot `id` now holds `d`. -/
def setExternalData (core : CoreObject) (id : String) (d : ExternalData) : CoreObject :=
  (id, d) :: core.filter (fun e => e.1 ≠ id)

/-- The data currently installed under `id`. -/
def externalData (core : CoreObject) (id : String) : Option ExternalData :=
  (core.find? (fun e => e.1 = id)).map Prod.snd

/-- The decoding part of the task body: `none` on each of the early returns (no format
handler, stream info failure, compressed info failure, read failure), the decoded 16-bit
samples otherwise.  The outcome of `StreamCompressedData` is not tested. -/
def decode (w : FSoundWaveProxy) : Option (List Int) :=
  if !w.hasFactory then none
  else if w.isStreaming then
    match w.streamInfo with
    | none => none
    | some size => some (int16View size w.streamWords)
  else
    match w.readInfo with
    | none => none
    | some size => if w.readOk then some (int16View size w.readWords) else none

/-- The body of the task launched by `Update` for the loader with id `id`, run against
the engine: installs the normalised samples, or returns early and installs nothing. -/
def runTask (id : String) (w : FSoundWaveProxy) (core : CoreObject) : CoreObject :=
  match decode w with
  | none => core
  | some data =>
    let samples := data.map normalizeSample
    setExternalData core id ⟨samples, 4 * samples.length, w.numChannels, w.sampleRate⟩

/-- `WaveAssetDataRef`: the loader of one external-data reference. -/
structure WaveAssetDataRef where
  Id : String
  WaveAssetProxyKey : FObjectKey
  Task : FTask
  Cleanup : List FTask
deriving DecidableEq

/-- The pipe `AsyncTaskPipe`: the bodies of the tasks launched so far (the loader id and
the proxy each captured); the handle of a task is its position. -/
abbrev TaskPipe := List (String × FSoundWaveProxy)

/-- `WaveAssetDataRef::Update`, on the proxy `WaveProxy` currently bound (`none` when the
handle is invalid).  Returns the loader and the pipe afterwards. -/
def WaveAssetDataRef.Update (completed : TaskId → Bool) (WaveProxy : Option FSoundWaveProxy)
    (self : WaveAssetDataRef) (pipe : TaskPipe) : WaveAssetDataRef × TaskPipe :=
  match WaveProxy with
  | none => (self, pipe)
  | some w =>
    if w.key = self.WaveAssetProxyKey then (self, pipe)
    else
      let cleanup :=
        if validAndRunning completed self.Task then self.Cleanup ++ [self.Task]
        else self.Cleanup
      ({ self with WaveAssetProxyKey := w.key, Task := some pipe.length, Cleanup := cleanup },
        pipe ++ [(self.Id, w)])

/-- Consecutive `Update` calls on the same bound proxy, one per entry of `cs` (the
completion status seen by each call). -/
def WaveAssetDataRef.UpdateMany (WaveProxy : Option FSoundWaveProxy) :
    List (TaskId → Bool) → WaveAssetDataRef × TaskPipe → WaveAssetDataRef × TaskPipe
  | [], s => s
  | c :: cs, s => WaveAssetDataRef.UpdateMany WaveProxy cs (WaveAssetDataRef.Update c WaveProxy s.1 s.2)

/-! ## The transport section of `Execute` -/

/-- The values read from the host transport in one block: beat time (a double), tempo
(a float), run flag and time signature.  The two floating values are taken to be
numbers; `std::max(0.0, x)` also returns `0.0` when `x` is not a number. -/
structure FTransport where
  beatTime : ℚ
  bpm : ℚ
  run : Bool
  num : Int
  den : Int
deriving DecidableEq

/-- The last-forwarded transport values kept by the operator. -/
structure LastTransport where
  LastTransportBeatTime : ℚ
  LastTransportBPM : ℚ
  LastTransportRun : Bool
  LastTransportNum : Int
  LastTransportDen : Int
deriving DecidableEq

/-- The transport events scheduled on the engine, each with its time in milliseconds. -/
inductive TransportEvt where
  | BeatTimeEvent (time : ℚ) (beatTime : ℚ)
  | TempoEvent (time : ℚ) (bpm : ℚ)
  | TransportEvent (time : ℚ) (running : Bool)
  | TimeSignatureEvent (time : ℚ) (num den : Int)
deriving DecidableEq

/-- The freshly constructed snapshot. -/
def LastTransport.initial : LastTransport :=
  ⟨-1, 0, false, 0, 0⟩

/-- The beat-time step: the reported value is clamped below at `0.0` by `std::max`. -/
def stepBeatTime (t : FTransport) (s : LastTransport × List TransportEvt) :
    LastTransport × List TransportEvt :=
  let btime := max 0 t.beatTime
  if s.1.LastTransportBeatTime ≠ btime then
    ({ s.1 with LastTransportBeatTime := btime }, s.2 ++ [TransportEvt.BeatTimeEvent 0 btime])
  else s

/-- The tempo step: the reported value is clamped below at `0.0f` by `std::max`. -/
def stepTempo (t : FTransport) (s : LastTransport × List TransportEvt) :
    LastTransport × List TransportEvt :=
  let bpm := max 0 t.bpm
  if s.1.LastTransportBPM ≠ bpm then
    ({ s.1 with LastTransportBPM := bpm }, s.2 ++ [TransportEvt.TempoEvent 0 bpm])
  else s

/-- The run-flag step. -/
def stepRun (t : FTransport) (s : LastTransport × List TransportEvt) :
    LastTransport × List TransportEvt :=
  if s.1.LastTransportRun ≠ t.run then
    ({ s.1 with LastTransportRun := t.run }, s.2 ++ [TransportEvt.TransportEvent 0 t.run])
  else s

/-- The time-signature step: one event for the pair when either component changed. -/
def stepTimeSig (t : FTransport) (s : LastTransport × List TransportEvt) :
    LastTransport × List TransportEvt :=
  if s.1.LastTransportNum ≠ t.num ∨ s.1.LastTransportDen ≠ t.den then
    ({ s.1 with LastTransportNum := t.num, LastTransportDen := t.den },
      s.2 ++ [TransportEvt.TimeSignatureEvent 0 t.num t.den])
  else s

/-- The transport section of `Execute`: `Transport` is set exactly when the patch
declares transport; the four quantities are compared and forwarded in turn.  Returns the
snapshot afterwards and the events scheduled, in order. -/
def ExecuteTransport (Transport : Option FTransport) (last : LastTransport) :
    LastTransport × List TransportEvt :=
  match Transport with
  | none => (last, [])
  | some t => stepTimeSig t (stepRun t (stepTempo t (stepBeatTime t (last, []))))

/-! ## The input-parameter section of `Execute` -/

/-- The two calls of `RNBO::ParameterEventInterface` that `Execute` makes for input
parameters, over an engine state `ε`.  The engine is not part of the sources, so its
behaviour is left open. -/
structure ParameterInterface (ε : Type) where
  getParameterValue : ε → ParameterIndex → ℚ
  setParameterValue : ε → ParameterIndex → ℚ → ε

/-- The body shared by the three input loops: `if (v != getParameterValue(index))
setParameterValue(index, v)`.  The second component logs the calls made, in order. -/
def forwardParam {ε : Type} (I : ParameterInterface ε)
    (s : ε × List (ParameterIndex × ℚ)) (entry : ParameterIndex × ℚ) :
    ε × List (ParameterIndex × ℚ) :=
  if entry.2 ≠ I.getParameterValue s.1 entry.1 then
    (I.setParameterValue s.1 entry.1 entry.2, s.2 ++ [entry])
  else s

/-- The host-supplied values of one block as the doubles `Execute` compares: a float and
an `int32` converted to `double`, a bool as `1.0` or `0.0`; float entries first, then
int entries, then bool entries, each table in its iteration order. -/
def inputEntries (mInputFloatParams : List (ParameterIndex × ℚ))
    (mInputIntParams : List (ParameterIndex × Int))
    (mInputBoolParams : List (ParameterIndex × Bool)) : List (ParameterIndex × ℚ) :=
  mInputFloatParams ++ mInputIntParams.map (fun e => (e.1, (e.2 : ℚ))) ++
    mInputBoolParams.map (fun e => (e.1, if e.2 then 1 else 0))

/-- The input-parameter section of `Execute`, from the engine state `e`: returns the
engine afterwards and the `setParameterValue` calls made, in order. -/
def ExecuteInputParams {ε : Type} (I : ParameterInterface ε)
    (mInputFloatParams : List (ParameterIndex × ℚ))
    (mInputIntParams : List (ParameterIndex × Int))
    (mInputBoolParams : List (ParameterIndex × Bool)) (e : ε) :
    ε × List (ParameterIndex × ℚ) :=
  (inputEntries mInputFloatParams mInputIntParams mInputBoolParams).foldl (forwardParam I) (e, [])

/-- The engine stores what is set: after `setParameterValue(i, v)` the value of `i` is
`v` and every other value is as before. -/
def StoresValues {ε : Type} (I : ParameterInterface ε) : Prop :=
  ∀ e i v j, I.getParameterValue (I.setParameterValue e i v) j =
    if j = i then v else I.getParameterValue e j

/-- `RNBO::MessageTag`: the hash of a port tag. -/
abbrev MessageTag := Nat

/-- Modelled from the spec: a trigger port "carries no value, only timed occurrence
events within a block"; `FTrigger` is kept as the frames triggered in the block. -/
structure FTrigger where
  frames : List Int
deriving DecidableEq

/-- Modelled from the spec: the message callback "records a trigger occurrence at that
frame"; `FTrigger::TriggerFrame` adds one occurrence. -/
def FTrigger.TriggerFrame (t : FTrigger) (frame : Int) : FTrigger :=
  ⟨t.frames ++ [frame]⟩

/-- Modelled from the spec: on reset "output triggers ... are cleared". -/
def FTrigger.Reset (_t : FTrigger) : FTrigger :=
  ⟨[]⟩

/-- Modelled from the spec: the MIDI-out accumulation buffer of a block, kept as the
packets (frame, bytes) pushed so far. -/
structure FMIDIBuffer where
  packets : List (Int × List Nat)
deriving DecidableEq

/-- Modelled from the spec: on reset "MIDI-out accumulation [is] cleared". -/
def FMIDIBuffer.Reset (_b : FMIDIBuffer) : FMIDIBuffer :=
  ⟨[]⟩

/-- `RNBO::TimeConverter`: the snapshot (sample rate, current time) taken at the top of
a block. -/
structure TimeConverter where
  sampleRate : ℚ
  currentTime : ℚ
deriving DecidableEq

/-- `RNBO::MessageEvent::Type`. -/
inductive MessageEventType where
  | Invalid
  | Number
  | List
  | Bang
deriving DecidableEq

/-- The members of `FRNBOOperator` that `Reset` and the event callbacks can reach: the
time converter, the output cells, the output trigger ports, the optional MIDI-out buffer
(set exactly when MIDI output is declared), the last-forwarded transport values and the
loaders. -/
structure FRNBOOperator where
  Converter : TimeConverter
  mOutputFloatParams : List (ParameterIndex × ℚ)
  mOutputIntParams : List (ParameterIndex × Int)
  mOutputBoolParams : List (ParameterIndex × Bool)
  mOutportTriggerParams : List (MessageTag × FTrigger)
  MIDIOut : Option FMIDIBuffer
  Last : LastTransport
  mDataRefParams : List WaveAssetDataRef
deriving DecidableEq

/-- The cell found by `find(k)`: the value of the first entry keyed `k`. -/
def cell {β : Type} (k : Nat) : List (Nat × β) → Option β
  | [] => none
  | (k1, x) :: rest => if k1 = k then some x else cell k rest

/-- The write `*it->second = v` through the iterator `it = find(k)`: the first entry
keyed `k` receives `v`. -/
def setCell {β : Type} (k : Nat) (v : β) : List (Nat × β) → List (Nat × β)
  | [] => []
  | (k1, x) :: rest => if k1 = k then (k1, v) :: rest else (k1, x) :: setCell k v rest

/-- The conversion `static_cast<int32>(v)` of a double: truncation toward zero, defined
when the result fits. -/
def toInt32 (v : ℚ) : Option Int :=
  if -(2 ^ 31 : Int) ≤ truncQ v ∧ truncQ v < 2 ^ 31 then some (truncQ v) else none

/-- Rounding to the nearest integer, a tie going to the even neighbour. -/
def roundHalfEven (x : ℚ) : Int :=
  if x - ⌊x⌋ < 1 / 2 then ⌊x⌋
  else if 1 / 2 < x - ⌊x⌋ then ⌊x⌋ + 1
  else if ⌊x⌋ % 2 = 0 then ⌊x⌋ else ⌊x⌋ + 1

/-- The conversion `static_cast<float>(v)` of a double, for `v` within the range of
`float`: `v` is rounded (to nearest, ties to even) to a multiple of `2^(e-23)`, `e`
being the binary exponent of `v`, not taken below -126 (the subnormal range). -/
def toFloat32 (v : ℚ) : ℚ :=
  (roundHalfEven (v / 2 ^ (max (Int.log 2 |v|) (-126) - 23)) : ℚ) *
    2 ^ (max (Int.log 2 |v|) (-126) - 23)

/-- An operator with one float cell (key 1), one int cell (key 2) and one bool cell
(key 3). -/
def threeCells : FRNBOOperator :=
  ⟨⟨44100, 0⟩, [(1, 0)], [(2, 0)], [(3, false)], [], none, LastTransport.initial, []⟩

/-- `FRNBOOperator::handleParameterEvent` for the event `(index, value)`; `castFloat` is
the conversion `static_cast<float>` of a double.  `none` when the integer conversion is
undefined. -/
def FRNBOOperator.handleParameterEvent (castFloat : ℚ → ℚ) (index : ParameterIndex)
    (value : ℚ) (self : FRNBOOperator) : Option FRNBOOperator :=
  if hasKey index self.mOutputBoolParams then
    some { self with
      mOutputBoolParams := setCell index (decide (value ≠ 0)) self.mOutputBoolParams }
  else if hasKey index self.mOutputFloatParams then
    some { self with
      mOutputFloatParams := setCell index (castFloat value) self.mOutputFloatParams }
  else if hasKey index self.mOutputIntParams then
    match toInt32 value with
    | none => none
    | some n => some { self with mOutputIntParams := setCell index n self.mOutputIntParams }
  else some self

/-- `FRNBOOperator::handleMessageEvent` for an event of type `type` with tag `evTag` at
time `time`; `convertMillisecondsToSampleOffset` is the engine's conversion on the
converter snapshot, its result narrowed by `static_cast<int32>`. -/
def FRNBOOperator.handleMessageEvent
    (convertMillisecondsToSampleOffset : TimeConverter → ℚ → Int)
    (type : MessageEventType) (evTag : MessageTag) (time : ℚ) (self : FRNBOOperator) :
    FRNBOOperator :=
  match type with
  | MessageEventType.Bang =>
    match cell evTag self.mOutportTriggerParams with
    | some t =>
      let frame := wrapInt32 (convertMillisecondsToSampleOffset self.Converter time);
      { self with
        mOutportTriggerParams := setCell evTag (t.TriggerFrame frame) self.mOutportTriggerParams }
    | none => self
  | _ => self

/-- `FRNBOOperator::Reset`: every output trigger is reset, and the MIDI-out buffer when
it is set. -/
def FRNBOOperator.Reset (self : FRNBOOperator) : FRNBOOperator :=
  { self with
    mOutportTriggerParams := self.mOutportTriggerParams.map (fun e => (e.1, e.2.Reset)),
    MIDIOut := self.MIDIOut.map FMIDIBuffer.Reset }

/-- The constructor's loop `for (it : Table) m.emplace(it.first, CreateNew(f(it.second)))`
building the cells of an output table, `f` being the conversion of the initial value. -/
def cellsOf {β : Type} (f : FRNBOMetasoundParam → β) (t : ParamTable) :
    List (ParameterIndex × β) :=
  t.foldl (fun m e => emplace m e.1 (f e.2)) []

/-! ## Loader teardown and loader construction -/

/-- The destructor `~WaveAssetDataRef`: the current task is pushed to `Cleanup`, and
every entry that is valid and not completed is waited on.  Returns the tasks waited on;
when the destructor returns these have completed. -/
def WaveAssetDataRef.destroy (completed : TaskId → Bool) (self : WaveAssetDataRef) :
    List TaskId :=
  (self.Cleanup ++ [self.Task]).filterMap
    (fun t => if validAndRunning completed t then t else none)

/-- The completion status once the destructor has returned: what had completed before,
and the tasks it waited on. -/
def completedAfterDestroy (completed : TaskId → Bool) (self : WaveAssetDataRef)
    (t : TaskId) : Bool :=
  completed t || decide (t ∈ self.destroy completed)

/-- One block of a loader's life: the completion status seen by `Update`, the proxy
bound, and the tasks other loaders launched on the shared pipe since the last block. -/
structure LoaderBlock where
  completed : TaskId → Bool
  WaveProxy : Option FSoundWaveProxy
  others : TaskPipe

/-- A loader together with the shared pipe and the tasks this loader has launched. -/
structure LoaderRun where
  loader : WaveAssetDataRef
  pipe : TaskPipe
  launched : List TaskId

/-- One `Update` call within a run, recording the task it launched, if any. -/
def LoaderRun.step (r : LoaderRun) (b : LoaderBlock) : LoaderRun :=
  let pipe := r.pipe ++ b.others
  let u := WaveAssetDataRef.Update b.completed b.WaveProxy r.loader pipe
  ⟨u.1, u.2, if u.2.length = pipe.length then r.launched else r.launched ++ [pipe.length]⟩

/-- A sequence of `Update` calls. -/
def LoaderRun.steps (r : LoaderRun) (bs : List LoaderBlock) : LoaderRun :=
  bs.foldl LoaderRun.step r

/-- A run of two blocks on a fresh loader: an asset of key 1 is bound, then an asset of
key 2, no task having completed at either `Update`. -/
def twoAssetRun : LoaderRun :=
  (⟨⟨"buf", 0, none, []⟩, [], []⟩ : LoaderRun).steps
    [⟨fun _ => false, some ⟨1, 44100, 2, true, false, none, [], some 4, true, [1, 2]⟩, []⟩,
     ⟨fun _ => false, some ⟨2, 44100, 2, true, false, none, [], some 4, true, [3, 4]⟩, []⟩]

/-- The visible numeric parameters of `desc` have pairwise distinct indices: two of them
that are read with the same `RNBO::ParameterIndex` are the same descriptor. -/
def DistinctIndices (desc : Json) : Prop :=
  ∀ ps p q i j, desc.lookup "parameters" = some ps → p ∈ ps.items → q ∈ ps.items →
    p.lookup "type" = some (str "ParameterTypeNumber") →
    q.lookup "type" = some (str "ParameterTypeNumber") →
    p.lookup "visible" ≠ some (Json.bool false) →
    q.lookup "visible" ≠ some (Json.bool false) →
    (p.lookup "index").bind getInt = some i → (q.lookup "index").bind getInt = some j →
    toParameterIndex i = toParameterIndex j → p = q

/-- No index is a key of two of the three tables. -/
def PairwiseDisjointKeys {α β γ : Type} (tb : List (ParameterIndex × α))
    (tf : List (ParameterIndex × β)) (ti : List (ParameterIndex × γ)) : Prop :=
  ∀ k, ¬ (hasKey k tb = true ∧ hasKey k tf = true) ∧
    ¬ (hasKey k tb = true ∧ hasKey k ti = true) ∧
    ¬ (hasKey k tf = true ∧ hasKey k ti = true)

/-- A schema with a boolean and a float parameter, both input and output. -/
def schemaBoolAndFloat : Json :=
  obj [("parameters", arr [
    obj [("type", str "ParameterTypeNumber"), ("index", int 0), ("name", str "mute"),
      ("displayName", str ""), ("paramId", str "mute"), ("initialValue", int 0),
      ("steps", int 2), ("enumValues", arr [int 0, int 1]), ("isEnum", Json.bool true),
      ("meta", obj [("in", Json.bool true), ("out", Json.bool true)])],
    obj [("type", str "ParameterTypeNumber"), ("index", int 1), ("name", str "gain"),
      ("displayName", str ""), ("paramId", str "gain"), ("initialValue", int 1),
      ("steps", int 0), ("enumValues", arr []), ("isEnum", Json.bool false),
      ("meta", obj [("in", Json.bool true), ("out", Json.bool true)])]])]

/-- The slot loop of the constructor: `index = 0; for (p : DataRefParams())
id = getExternalDataId(index++)`, pairing each entry of the filtered list with the engine
slot index used for it. -/
def dataRefSlots (WITH_EDITOR : Bool) (desc : Json) : Option (List (Nat × FRNBOMetasoundParam)) :=
  (DataRef WITH_EDITOR desc).map (fun ps => ps.enum)

/-- The loaders the constructor creates: the `k`-th entry of the filtered list gets the
id the engine reports for slot `k`. -/
def newDataRefParams (WITH_EDITOR : Bool) (desc : Json) (getExternalDataId : Nat → String) :
    Option (List (String × WaveAssetDataRef)) :=
  (dataRefSlots WITH_EDITOR desc).map
    (fun ps => ps.map (fun e => (e.2.mName, ⟨getExternalDataId e.1, 0, none, []⟩)))

/-- The positions, among all declared references, of those `DataRef` keeps. -/
def keptPositions (refs : List Json) : List Nat :=
  (refs.enum.filter (fun e => dataRefKept e.2)).map Prod.fst

/-- The id of the reference declared at position `k` of `desc["externalDataRefs"]`. -/
def declaredDataRefId (desc : Json) (k : Nat) : String :=
  match desc.lookup "externalDataRefs" with
  | some refs => dataRefId (refs.items.getD k null)
  | none => ""

/-- A schema that declares an unsupported reference before a supported one. -/
def schemaUnsupportedFirst : Json :=
  obj [("externalDataRefs", arr [
    obj [("id", str "table"), ("tag", str "data")],
    obj [("id", str "loop"), ("tag", str "buffer~")]])]

/-! ## Theorems: descriptor introspection -/

theorem lookup_obj (kvs : List (String × Json)) (key : String) :
    (obj kvs).lookup key = find key kvs := rfl

theorem getNum_of_is_number (j : Json) (h : j.is_number = true) : ∃ x, j.getNum = some x := by
  cases j <;> simp [is_number, getNum] at h ⊢

/-- C1 (as the code has it): `IsBoolParam` answers `true` exactly when the step count
reads 2 and `enumValues` is an array whose first two entries are numbers that read, as
single-precision floats, `0.0f` and `1.0f`; the length of the array and the entries past
the second play no part. -/
theorem IsBoolParam_true_iff (p : Json) :
    IsBoolParam p = some true ↔ stepsOf p = some 2 ∧ firstTwoEnumValuesZeroOne p := by
  unfold IsBoolParam stepsOf firstTwoEnumValuesZeroOne
  cases hs : p.lookup "steps" with
  | none => simp
  | some sj =>
    cases hk : sj.getInt with
    | none => simp [hk]
    | some k =>
      by_cases h2 : k = 2
      · subst h2
        cases hev : p.lookup "enumValues" with
        | none => simp [hk]
        | some ev =>
          cases ev with
          | arr e =>
            by_cases hn : ((idx e 0).is_number && (idx e 1).is_number) = true
            · have hn0 : (idx e 0).is_number = true := by
                simp only [Bool.and_eq_true] at hn; exact hn.1
              have hn1 : (idx e 1).is_number = true := by
                simp only [Bool.and_eq_true] at hn; exact hn.2
              obtain ⟨x0, hx0⟩ := getNum_of_is_number _ hn0
              obtain ⟨x1, hx1⟩ := getNum_of_is_number _ hn1
              by_cases hz : f32EqZero x0 = true
              · simp [hk, hn0, hn1, hx0, hx1, hz]
              · simp [hk, hn0, hn1, hx0, hx1, hz]
            · have : ¬ ((idx e 0).is_number = true ∧ (idx e 1).is_number = true) := by
                simpa only [Bool.and_eq_true] using hn
              simp only [Option.some_bind, Option.bind_eq_bind, hk, hn]
              simp
              intro a b
              exact absurd ⟨a, b⟩ this
          | _ => simp [hk]
      · simp [hk, h2]

/-- C1 (counterexample): with two steps and the three enumerated values 0, 1, 2 the
code answers `true`, although the enumerated values are not exactly the two values 0.0
and 1.0. -/
theorem IsBoolParam_three_enum_values :
    IsBoolParam (obj [("steps", int 2), ("enumValues", arr [int 0, int 1, int 2])]) = some true ∧
    stepsOf (obj [("steps", int 2), ("enumValues", arr [int 0, int 1, int 2])]) = some 2 ∧
    enumValuesExactlyZeroOne
      (obj [("steps", int 2), ("enumValues", arr [int 0, int 1, int 2])]) = false := by
  refine ⟨?_, ?_, ?_⟩
  · simp [IsBoolParam, Json.lookup, Json.find, getInt, wrapInt32, idx, is_number, getNum,
      f32EqZero, f32EqOne]
  · simp [stepsOf, Json.lookup, Json.find, getInt, wrapInt32]
  · simp [enumValuesExactlyZeroOne, Json.lookup, Json.find]

theorem IsBoolParam_defined (p : Json) (k : Int) (ev : Json)
    (hs : stepsOf p = some k) (hev : p.lookup "enumValues" = some ev) :
    ∃ b, IsBoolParam p = some b := by
  unfold stepsOf at hs
  unfold IsBoolParam
  cases hl : p.lookup "steps" with
  | none => simp [hl] at hs
  | some sj =>
    have hk : sj.getInt = some k := by simpa [hl] using hs
    by_cases h2 : k = 2
    · subst h2
      cases ev with
      | arr e =>
        cases hn0 : (idx e 0).is_number with
        | false => simp [hk, hev, hn0]
        | true =>
          cases hn1 : (idx e 1).is_number with
          | false => simp [hk, hev, hn0, hn1]
          | true =>
            obtain ⟨x0, hx0⟩ := getNum_of_is_number _ hn0
            obtain ⟨x1, hx1⟩ := getNum_of_is_number _ hn1
            by_cases hz : f32EqZero x0 = true
            · simp [hk, hev, hn0, hn1, hx0, hx1, hz]
            · simp [hk, hev, hn0, hn1, hx0, hx1, hz]
      | _ => simp [hk, hev]
    · simp [hk, h2]

/-- C2: for a descriptor whose `steps`, `enumValues` and `isEnum` are present (the step
count readable as an integer, `isEnum` a boolean), the three tests all return and exactly
one of them is true; the integer test holds exactly when the descriptor is flagged
`isEnum` and is not boolean, the float test exactly when it is neither boolean nor
integer. -/
theorem classification_exactly_one (p : Json) (k : Int) (ev : Json) (e : Bool)
    (hs : stepsOf p = some k) (hev : p.lookup "enumValues" = some ev)
    (he : p.lookup "isEnum" = some (bool e)) :
    ∃ b i f, IsBoolParam p = some b ∧ IsIntParam p = some i ∧ IsFloatParam p = some f ∧
      b.toNat + i.toNat + f.toNat = 1 ∧ i = (e && !b) ∧ f = (!b && !i) := by
  obtain ⟨b, hb⟩ := IsBoolParam_defined p k ev hs hev
  have hi : IsIntParam p = some (e && !b) := by
    unfold IsIntParam
    cases b <;> simp [hb, he, getBool]
  have hf : IsFloatParam p = some (!b && !(e && !b)) := by
    unfold IsFloatParam
    cases b <;> simp [hb, hi]
  refine ⟨b, e && !b, !b && !(e && !b), hb, hi, hf, ?_, rfl, rfl⟩
  cases b <;> cases e <;> rfl

/-- C2 (witness): a float-shaped, an enum-shaped and a boolean descriptor. -/
theorem classification_exactly_one_witness :
    ∃ b i f, IsBoolParam (obj [("steps", int 3), ("enumValues", arr [int 0, int 1, int 2]),
        ("isEnum", bool true)]) = some b ∧
      IsIntParam (obj [("steps", int 3), ("enumValues", arr [int 0, int 1, int 2]),
        ("isEnum", bool true)]) = some i ∧
      IsFloatParam (obj [("steps", int 3), ("enumValues", arr [int 0, int 1, int 2]),
        ("isEnum", bool true)]) = some f ∧
      b.toNat + i.toNat + f.toNat = 1 ∧ i = (true && !b) ∧ f = (!b && !i) :=
  classification_exactly_one _ 3 (arr [int 0, int 1, int 2]) true
    (by simp [stepsOf, Json.lookup, Json.find, getInt, wrapInt32])
    (by simp [Json.lookup, Json.find])
    (by simp [Json.lookup, Json.find])

theorem IsInputParam_of_flag (p : Json) (kvs : List (String × Json)) (b : Bool)
    (hm : p.lookup "meta" = some (obj kvs)) (hin : find "in" kvs = some (bool b)) :
    IsInputParam p = some b := by
  simp [IsInputParam, hm, is_object, lookup_obj, hin, is_boolean, getBool]

theorem IsOutputParam_of_flag (p : Json) (kvs : List (String × Json)) (b : Bool)
    (hm : p.lookup "meta" = some (obj kvs)) (hout : find "out" kvs = some (bool b)) :
    IsOutputParam p = some b := by
  simp [IsOutputParam, hm, is_object, lookup_obj, hout, is_boolean, getBool]

/-- Where the direction tests return, they return the flag or the default: `IsInputParam`
answers the boolean `meta.in` when there is one and `true` otherwise, `IsOutputParam`
the boolean `meta.out` when there is one and `false` otherwise. -/
theorem direction_tests_when_defined (p : Json) :
    (∀ r, IsInputParam p = some r →
      r = (match (p.lookup "meta").bind (fun m => m.lookup "in") with
        | some (Json.bool b) => b
        | _ => true)) ∧
    (∀ r, IsOutputParam p = some r →
      r = (match (p.lookup "meta").bind (fun m => m.lookup "out") with
        | some (Json.bool b) => b
        | _ => false)) := by
  constructor
  · intro r hr
    unfold IsInputParam at hr
    cases hm : p.lookup "meta" with
    | none => simp [hm] at hr
    | some m =>
      cases m with
      | obj kvs =>
        cases hi : find "in" kvs with
        | none => simp [hm, is_object, lookup_obj, hi] at hr
        | some i =>
          cases i <;>
            simp [hm, is_object, lookup_obj, hi, is_boolean, getBool] at hr <;>
            simp [lookup_obj, hi, hr.symm]
      | _ =>
        simp [hm, is_object] at hr
        simp [Json.lookup, hr.symm]
  · intro r hr
    unfold IsOutputParam at hr
    cases hm : p.lookup "meta" with
    | none => simp [hm] at hr
    | some m =>
      cases m with
      | obj kvs =>
        cases hi : find "out" kvs with
        | none => simp [hm, is_object, lookup_obj, hi] at hr
        | some i =>
          cases i <;>
            simp [hm, is_object, lookup_obj, hi, is_boolean, getBool] at hr <;>
            simp [lookup_obj, hi, hr.symm]
      | _ =>
        simp [hm, is_object] at hr
        simp [Json.lookup, hr.symm]

/-- C4 (the code at the failing input): on a parameter whose `meta` object carries only
`out`, the output test reads the flag, and the input test looks up the absent entry `in`
through the const accessor and has no defined result, where the claim has `true`; on a
parameter without `meta` neither test has a defined result. -/
theorem IsInputParam_absent_flag :
    IsOutputParam (obj [("meta", obj [("out", bool true)])]) = some true ∧
    IsInputParam (obj [("meta", obj [("out", bool true)])]) = none ∧
    IsInputParam (obj [("index", int 0)]) = none ∧
    IsOutputParam (obj [("index", int 0)]) = none := by
  decide

theorem contains_eq_isSome (p : Json) (key : String) :
    p.contains key = (p.lookup key).isSome := by
  cases p <;> rfl

theorem mem_emplace {β : Type} (t : List (ParameterIndex × β)) (k : ParameterIndex) (v : β)
    (e : ParameterIndex × β) (h : e ∈ emplace t k v) : e ∈ t ∨ e = (k, v) := by
  unfold emplace at h
  split at h
  · exact Or.inl h
  · simpa using h

theorem typeIsNumber_true (p : Json) (h : typeIsNumber p = some true) :
    p.lookup "type" = some (str "ParameterTypeNumber") := by
  unfold typeIsNumber at h
  cases hty : p.lookup "type" with
  | none => simp [hty] at h
  | some tj =>
    cases tj with
    | str ty =>
      have : ty = "ParameterTypeNumber" := by simpa [hty, getString] using h
      rw [this]
    | _ => simp [hty, getString] at h

theorem markedHidden_false (p : Json) (h : markedHidden p = some false) :
    p.lookup "visible" ≠ some (Json.bool false) := by
  intro hv
  simp [markedHidden, contains_eq_isSome, hv, getBool] at h

theorem getString_eq_some (j : Json) (s : String) (h : j.getString = some s) : j = str s := by
  cases j <;> simp [getString] at h
  rw [h]

theorem paramFields_some (p : Json) (index : ParameterIndex) (name displayName id : String)
    (h : paramFields p = some (index, name, displayName, id)) :
    ∃ i, (p.lookup "index").bind getInt = some i ∧ index = toParameterIndex i ∧
      p.lookup "name" = some (str name) := by
  simp only [paramFields, Option.bind_eq_bind, Option.pure_def, Option.bind_eq_some,
    Option.some.injEq, Prod.mk.injEq] at h
  obtain ⟨ij, hl, i, hij, nj, hn, nm, hnm, dj, hd, dn, hdn, pj, hp, pid, hpid, h1, h2, h3, h4⟩ := h
  refine ⟨i, ?_, h1.symm, ?_⟩
  · simp [hl, hij]
  · rw [hn, getString_eq_some nj nm hnm, h2]

/-- One round of the loop of `NumericParamsFiltered` either leaves the table as it is or
emplaces the entry of a visible numeric parameter that the filter accepts. -/
theorem NumericParamsStep_filtered (W : Bool) (filter : Json → Option Bool)
    (s s1 : ParamTable) (p : Json)
    (h : NumericParamsStep (filteredCallback W filter) s p = some s1) :
    s1 = s ∨ ∃ i name v, s1 = emplace s (toParameterIndex i) v ∧
      p.lookup "type" = some (str "ParameterTypeNumber") ∧
      p.lookup "visible" ≠ some (Json.bool false) ∧
      filter p = some true ∧ (p.lookup "index").bind getInt = some i ∧
      p.lookup "name" = some (str name) ∧ v.mName = name := by
  unfold NumericParamsStep at h
  cases hty : typeIsNumber p with
  | none => simp [hty] at h
  | some tb =>
    cases tb with
    | false =>
      left
      simpa [hty] using h.symm
    | true =>
      cases hh : markedHidden p with
      | none => simp [hty, hh] at h
      | some hb =>
        cases hb with
        | true =>
          left
          simpa [hty, hh] using h.symm
        | false =>
          cases hf : paramFields p with
          | none => simp [hty, hh, hf] at h
          | some fields =>
            obtain ⟨index, name, displayName, id⟩ := fields
            simp only [hty, hh, hf] at h
            obtain ⟨i, hi, hidx, hname⟩ := paramFields_some p index name displayName id hf
            unfold filteredCallback at h
            cases hfl : filter p with
            | none => simp [hfl] at h
            | some fb =>
              cases fb with
              | false =>
                left
                simpa [hfl] using h.symm
              | true =>
                right
                cases hiv : (p.lookup "initialValue").bind getNum with
                | none => simp [hfl, hiv] at h
                | some iv =>
                  simp only [hfl, hiv, Option.some.injEq] at h
                  refine ⟨i, name, FRNBOMetasoundParam.new W name id displayName iv, ?_,
                    typeIsNumber_true p hty, markedHidden_false p hh, rfl, hi, hname, ?_⟩
                  · rw [← h, hidx]
                  · unfold FRNBOMetasoundParam.new
                    split <;> rfl

theorem NumericParamsLoop_filtered (W : Bool) (filter : Json → Option Bool)
    (Q : ParameterIndex × FRNBOMetasoundParam → Prop) (all : List Json)
    (hQ : ∀ p ∈ all, ∀ i name v, p.lookup "type" = some (str "ParameterTypeNumber") →
      p.lookup "visible" ≠ some (Json.bool false) → filter p = some true →
      (p.lookup "index").bind getInt = some i → p.lookup "name" = some (str name) →
      v.mName = name → Q (toParameterIndex i, v)) :
    ∀ (l : List Json) (s t : ParamTable), (∀ p ∈ l, p ∈ all) → (∀ e ∈ s, Q e) →
      NumericParamsLoop (filteredCallback W filter) s l = some t → ∀ e ∈ t, Q e := by
  intro l
  induction l with
  | nil =>
    intro s t _ hs h e he
    simp [NumericParamsLoop] at h
    exact hs e (h ▸ he)
  | cons p rest ih =>
    intro s t hl hs h
    unfold NumericParamsLoop at h
    cases hstep : NumericParamsStep (filteredCallback W filter) s p with
    | none => simp [hstep] at h
    | some s1 =>
      simp only [hstep, Option.bind_eq_bind, Option.some_bind] at h
      refine ih s1 t (fun q hq => hl q (List.mem_cons_of_mem _ hq)) ?_ h
      rcases NumericParamsStep_filtered W filter s s1 p hstep with h1 | ⟨i, name, v, h1, a, b, c, d, e1, f⟩
      · rw [h1]; exact hs
      · intro e he
        rw [h1] at he
        rcases mem_emplace s _ v e he with h2 | h2
        · exact hs e h2
        · rw [h2]
          exact hQ p (hl p (List.mem_cons_self _ _)) i name v a b c d e1 f

theorem NumericParamsFiltered_entries (W : Bool) (desc : Json) (filter : Json → Option Bool)
    (t : ParamTable) (h : NumericParamsFiltered W desc filter = some t) :
    ∀ e ∈ t, EntryOf desc filter e := by
  unfold NumericParamsFiltered NumericParams at h
  cases hps : desc.lookup "parameters" with
  | none => simp [hps] at h
  | some ps =>
    simp only [hps, Option.bind_eq_bind, Option.some_bind] at h
    refine NumericParamsLoop_filtered W filter (EntryOf desc filter) ps.items ?_ ps.items [] t
      (fun _ hp => hp) (by simp) h
    intro p hp i name v a b c d e f
    exact ⟨ps, p, i, name, hps, hp, a, b, c, d, rfl, e, f⟩

theorem hasKey_iff {β : Type} (k : ParameterIndex) (t : List (ParameterIndex × β)) :
    hasKey k t = true ↔ ∃ e ∈ t, e.1 = k := by
  simp [hasKey]

/-- C3: every entry of the table `NumericParamsFiltered` returns was built from a
parameter of the schema whose type is `ParameterTypeNumber`, that is not marked
`visible = false` and that the filter accepts; so an index carried only by parameters
that are marked `visible = false` or are not numeric is no key of the table; and this
holds of each of the six input/output bool/int/float tables. -/
theorem hidden_params_excluded (W : Bool) (desc : Json) :
    (∀ filter t, NumericParamsFiltered W desc filter = some t →
      ∀ e ∈ t, EntryOf desc filter e) ∧
    (∀ filter t k, NumericParamsFiltered W desc filter = some t →
      (∀ ps p i, desc.lookup "parameters" = some ps → p ∈ ps.items →
        (p.lookup "index").bind getInt = some i → toParameterIndex i = k →
        p.lookup "type" ≠ some (str "ParameterTypeNumber") ∨
          p.lookup "visible" = some (Json.bool false)) →
      hasKey k t = false) ∧
    (∀ tbl ∈ [InputFloatParams W desc, InputIntParams W desc, InputBoolParams W desc,
        OutputFloatParams W desc, OutputIntParams W desc, OutputBoolParams W desc],
      ∀ t, tbl = some t → ∀ e ∈ t, ∃ filter, EntryOf desc filter e) := by
  refine ⟨fun filter t h => NumericParamsFiltered_entries W desc filter t h, ?_, ?_⟩
  · intro filter t k h hk
    cases hkey : hasKey k t with
    | false => rfl
    | true =>
      obtain ⟨e, he, hek⟩ := (hasKey_iff k t).mp hkey
      obtain ⟨ps, p, i, name, hps, hp, hty, hvis, _, hidx, hei, _, _⟩ :=
        NumericParamsFiltered_entries W desc filter t h e he
      rcases hk ps p i hps hp hidx (by rw [← hei, hek]) with h1 | h1
      · exact absurd hty h1
      · exact absurd h1 hvis
  · intro tbl htbl t ht e he
    simp only [List.mem_cons, List.mem_singleton, List.not_mem_nil, or_false] at htbl
    rcases htbl with h | h | h | h | h | h <;>
      exact ⟨_, NumericParamsFiltered_entries W desc _ t (by rw [← ht, h]; rfl) e he⟩

/-- C3 (witness): on a schema with a hidden, a visible and a non-numeric parameter the
table holds the visible one only, and the index of the hidden one is no key. -/
theorem hidden_params_excluded_witness :
    NumericParamsFiltered true schemaWithHidden (fun _ => some true) =
      some [(1, ⟨"freq", 440, "osc/freq", "Frequency"⟩)] ∧
    hasKey 0 [(1, (⟨"freq", 440, "osc/freq", "Frequency"⟩ : FRNBOMetasoundParam))] = false :=
  ⟨rfl, (hidden_params_excluded true schemaWithHidden).2.1 (fun _ => some true) _ 0 rfl (by
    intro ps p i hps hp hidx hk
    have hps2 : ps = arr [
        obj [("type", str "ParameterTypeNumber"), ("index", int 0), ("name", str "gain"),
          ("displayName", str ""), ("paramId", str "gain"), ("visible", Json.bool false),
          ("initialValue", int 1)],
        obj [("type", str "ParameterTypeNumber"), ("index", int 1), ("name", str "freq"),
          ("displayName", str "Frequency"), ("paramId", str "osc/freq"),
          ("visible", Json.bool true), ("initialValue", int 440)],
        obj [("type", str "ParameterTypeList"), ("index", int 2)]] := by
      have : schemaWithHidden.lookup "parameters" = some (arr _) := rfl
      rw [this] at hps
      exact (Option.some.inj hps).symm
    subst hps2
    simp only [items, List.mem_cons, List.mem_singleton, List.not_mem_nil, or_false] at hp
    rcases hp with h | h | h
    · subst h
      exact Or.inr rfl
    · subst h
      have h1 : i = 1 := by
        have : (some (wrapInt32 1) : Option Int) = some i := hidx
        have h2 : wrapInt32 1 = 1 := by decide
        rw [h2] at this
        exact (Option.some.inj this).symm
      subst h1
      exact absurd hk (by decide)
    · subst h
      left
      intro hty
      have : (some (str "ParameterTypeList") : Option Json) = some (str "ParameterTypeNumber") := hty
      simp at this)⟩

theorem dataRefSkipped_of_readable (p : Json) (h : dataRefReadable p) :
    dataRefSkipped p = some (!dataRefKept p) := by
  unfold dataRefSkipped dataRefKept
  rw [contains_eq_isSome]
  cases ht : p.lookup "tag" with
  | none => simp
  | some t =>
    obtain ⟨s, hs⟩ := h.1 t ht
    subst hs
    simp [getString]

theorem DataRefLoop_eq (W : Bool) :
    ∀ (l : List Json) (acc : List FRNBOMetasoundParam), (∀ p ∈ l, dataRefReadable p) →
      DataRefLoop W acc l = some (acc ++ (l.filter dataRefKept).map (dataRefEntry W)) := by
  intro l
  induction l with
  | nil => intro acc _; simp [DataRefLoop]
  | cons p rest ih =>
    intro acc h
    have hp := h p (List.mem_cons_self _ _)
    have hrest : ∀ q ∈ rest, dataRefReadable q := fun q hq => h q (List.mem_cons_of_mem _ hq)
    unfold DataRefLoop
    rw [dataRefSkipped_of_readable p hp]
    cases hk : dataRefKept p with
    | false => simp [hk, ih acc hrest]
    | true =>
      obtain ⟨id, hid⟩ := hp.2 hk
      simp [hk, hid, getString, ih _ hrest, dataRefEntry, dataRefId]

theorem dataRefEntry_mName (W : Bool) (p : Json) : (dataRefEntry W p).mName = dataRefId p := by
  unfold dataRefEntry FRNBOMetasoundParam.new
  split <;> rfl

/-- C5 (as the code has it): on a schema whose references are readable, `DataRef`
returns, in schema order, one entry named by its id for each reference that has no tag
or has the tag `buffer~`, and none for a reference whose tag is anything else. -/
theorem DataRef_entries (W : Bool) (desc refs : Json)
    (hrefs : desc.lookup "externalDataRefs" = some refs)
    (hread : ∀ p ∈ refs.items, dataRefReadable p) :
    ∃ out, DataRef W desc = some out ∧
      out = (refs.items.filter dataRefKept).map (dataRefEntry W) ∧
      out.map (fun e => e.mName) = (refs.items.filter dataRefKept).map dataRefId := by
  refine ⟨_, ?_, rfl, ?_⟩
  · unfold DataRef
    simp [hrefs, DataRefLoop_eq W refs.items [] hread]
  · simp [List.map_map, Function.comp_def, dataRefEntry_mName]

/-- C5 (witness): a schema with an untagged, a `buffer~` and a `data` reference. -/
theorem DataRef_entries_witness :
    ∃ out, DataRef true schemaWithRefs = some out ∧
      out = ((arr [obj [("id", str "drums")], obj [("id", str "loop"), ("tag", str "buffer~")],
        obj [("id", str "table"), ("tag", str "data")]]).items.filter dataRefKept).map
          (dataRefEntry true) ∧
      out.map (fun e => e.mName) =
        ((arr [obj [("id", str "drums")], obj [("id", str "loop"), ("tag", str "buffer~")],
          obj [("id", str "table"), ("tag", str "data")]]).items.filter dataRefKept).map
            dataRefId :=
  DataRef_entries true schemaWithRefs _ rfl (by
    intro p hp
    simp only [items, List.mem_cons, List.mem_singleton, List.not_mem_nil, or_false] at hp
    rcases hp with h | h | h <;> subst h
    · exact ⟨fun t ht => by simp [Json.lookup, Json.find] at ht, fun _ => ⟨"drums", rfl⟩⟩
    · refine ⟨fun t ht => ⟨"buffer~", ?_⟩, fun _ => ⟨"loop", rfl⟩⟩
      have : (some (str "buffer~") : Option Json) = some t := ht
      exact (Option.some.inj this).symm
    · refine ⟨fun t ht => ⟨"data", ?_⟩, fun hk => ?_⟩
      · have : (some (str "data") : Option Json) = some t := ht
        exact (Option.some.inj this).symm
      · exact absurd hk (by decide))

/-- C5 (counterexample): a reference that carries no tag at all, so is not tagged
`buffer~`, still gets an entry. -/
theorem DataRef_untagged_reference :
    DataRef true (obj [("externalDataRefs", arr [obj [("id", str "drums")]])]) =
      some [⟨"drums", 0, "drums", "drums"⟩] ∧
    isBufferTyped (obj [("id", str "drums")]) = false := by
  constructor
  · rfl
  · decide

/-! ## Theorems: the external-data loader -/

theorem validAndRunning_iff (completed : TaskId → Bool) (t : FTask) :
    validAndRunning completed t = true ↔ ∃ i, t = some i ∧ completed i = false := by
  cases t <;> simp [validAndRunning]

/-- C6: `Update` as a state transition.  With an invalid handle, or a valid one whose key
equals the stored key, loader and pipe are unchanged (no task is launched).  Otherwise
the stored key becomes the asset's key, the previous current task is appended to the
cleanup set exactly when it is valid and not complete, and exactly one task is launched
(capturing this loader's id and the proxy) and becomes the current task. -/
theorem Update_transition (completed : TaskId → Bool) (WaveProxy : Option FSoundWaveProxy)
    (self : WaveAssetDataRef) (pipe : TaskPipe) :
    ((WaveProxy = none ∨ ∃ w, WaveProxy = some w ∧ w.key = self.WaveAssetProxyKey) →
      WaveAssetDataRef.Update completed WaveProxy self pipe = (self, pipe)) ∧
    (∀ w, WaveProxy = some w → w.key ≠ self.WaveAssetProxyKey →
      (WaveAssetDataRef.Update completed WaveProxy self pipe).1.Id = self.Id ∧
      (WaveAssetDataRef.Update completed WaveProxy self pipe).1.WaveAssetProxyKey = w.key ∧
      ((∃ i, self.Task = some i ∧ completed i = false) →
        (WaveAssetDataRef.Update completed WaveProxy self pipe).1.Cleanup =
          self.Cleanup ++ [self.Task]) ∧
      (¬ (∃ i, self.Task = some i ∧ completed i = false) →
        (WaveAssetDataRef.Update completed WaveProxy self pipe).1.Cleanup = self.Cleanup) ∧
      (WaveAssetDataRef.Update completed WaveProxy self pipe).2 = pipe ++ [(self.Id, w)] ∧
      (WaveAssetDataRef.Update completed WaveProxy self pipe).2.length = pipe.length + 1 ∧
      (WaveAssetDataRef.Update completed WaveProxy self pipe).1.Task = some pipe.length) := by
  constructor
  · rintro (h | ⟨w, h, hk⟩)
    · subst h; rfl
    · subst h; simp [WaveAssetDataRef.Update, hk]
  · intro w hw hk
    subst hw
    refine ⟨?_, ?_, ?_, ?_, ?_, ?_, ?_⟩
    · simp [WaveAssetDataRef.Update, hk]
    · simp [WaveAssetDataRef.Update, hk]
    · intro h
      have := (validAndRunning_iff completed self.Task).mpr h
      simp [WaveAssetDataRef.Update, hk, this]
    · intro h
      have : validAndRunning completed self.Task = false := by
        cases hv : validAndRunning completed self.Task with
        | false => rfl
        | true => exact absurd ((validAndRunning_iff completed self.Task).mp hv) h
      simp [WaveAssetDataRef.Update, hk, this]
    · simp [WaveAssetDataRef.Update, hk]
    · simp [WaveAssetDataRef.Update, hk]
    · simp [WaveAssetDataRef.Update, hk]

theorem Update_same_key (c : TaskId → Bool) (w : FSoundWaveProxy) (self : WaveAssetDataRef)
    (pipe : TaskPipe) (h : w.key = self.WaveAssetProxyKey) :
    WaveAssetDataRef.Update c (some w) self pipe = (self, pipe) := by
  simp [WaveAssetDataRef.Update, h]

theorem Update_key (c : TaskId → Bool) (w : FSoundWaveProxy) (self : WaveAssetDataRef)
    (pipe : TaskPipe) :
    (WaveAssetDataRef.Update c (some w) self pipe).1.WaveAssetProxyKey = w.key := by
  by_cases h : w.key = self.WaveAssetProxyKey
  · rw [Update_same_key c w self pipe h, h]
  · simp [WaveAssetDataRef.Update, h]

theorem UpdateMany_same_key (w : FSoundWaveProxy) :
    ∀ (cs : List (TaskId → Bool)) (s : WaveAssetDataRef × TaskPipe),
      w.key = s.1.WaveAssetProxyKey → WaveAssetDataRef.UpdateMany (some w) cs s = s := by
  intro cs
  induction cs with
  | nil => intro s _; rfl
  | cons c cs ih =>
    intro s h
    unfold WaveAssetDataRef.UpdateMany
    rw [Update_same_key c w s.1 s.2 h]
    exact ih s h

/-- C7 (as the code has it): consecutive `Update` calls with the same valid asset.  After
the first call any number of further calls changes nothing, so no task is launched after
the first; when the asset's key differs from the stored key, two calls, and any longer
run of calls, launch exactly one task in total; when the key is already the stored one
they launch none at all. -/
theorem Update_same_asset (c1 : TaskId → Bool) (w : FSoundWaveProxy)
    (self : WaveAssetDataRef) (pipe : TaskPipe) :
    (∀ cs, WaveAssetDataRef.UpdateMany (some w) cs
        (WaveAssetDataRef.Update c1 (some w) self pipe) =
      WaveAssetDataRef.Update c1 (some w) self pipe) ∧
    (w.key ≠ self.WaveAssetProxyKey → ∀ c2,
      (WaveAssetDataRef.Update c2 (some w) (WaveAssetDataRef.Update c1 (some w) self pipe).1
        (WaveAssetDataRef.Update c1 (some w) self pipe).2).2.length = pipe.length + 1) ∧
    (w.key ≠ self.WaveAssetProxyKey → ∀ cs,
      (WaveAssetDataRef.UpdateMany (some w) (c1 :: cs) (self, pipe)).2.length =
        pipe.length + 1) ∧
    (w.key = self.WaveAssetProxyKey → ∀ cs,
      WaveAssetDataRef.UpdateMany (some w) cs (self, pipe) = (self, pipe)) := by
  have hfix : ∀ cs, WaveAssetDataRef.UpdateMany (some w) cs
        (WaveAssetDataRef.Update c1 (some w) self pipe) =
      WaveAssetDataRef.Update c1 (some w) self pipe := fun cs =>
    UpdateMany_same_key w cs _ (Update_key c1 w self pipe).symm
  have hlen : w.key ≠ self.WaveAssetProxyKey →
      (WaveAssetDataRef.Update c1 (some w) self pipe).2.length = pipe.length + 1 := by
    intro h
    simp [WaveAssetDataRef.Update, h]
  refine ⟨hfix, ?_, ?_, ?_⟩
  · intro h c2
    rw [Update_same_key c2 w _ _ (Update_key c1 w self pipe).symm]
    exact hlen h
  · intro h cs
    show (WaveAssetDataRef.UpdateMany (some w) cs
      (WaveAssetDataRef.Update c1 (some w) self pipe)).2.length = pipe.length + 1
    rw [hfix cs]
    exact hlen h
  · intro h cs
    exact UpdateMany_same_key w cs (self, pipe) h

/-- C7 (witness): an asset of key 5 bound to a fresh loader: two calls, and three calls,
launch exactly one task. -/
theorem Update_same_asset_witness :
    (WaveAssetDataRef.Update (fun _ => false)
      (some ⟨5, 44100, 2, true, false, none, [], some 4, true, [1, 2]⟩)
      (WaveAssetDataRef.Update (fun _ => false)
        (some ⟨5, 44100, 2, true, false, none, [], some 4, true, [1, 2]⟩)
        ⟨"buf", 0, none, []⟩ []).1
      (WaveAssetDataRef.Update (fun _ => false)
        (some ⟨5, 44100, 2, true, false, none, [], some 4, true, [1, 2]⟩)
        ⟨"buf", 0, none, []⟩ []).2).2.length = ([] : TaskPipe).length + 1 ∧
    (WaveAssetDataRef.UpdateMany
      (some ⟨5, 44100, 2, true, false, none, [], some 4, true, [1, 2]⟩)
      [fun _ => false, fun _ => false, fun _ => true]
      (⟨"buf", 0, none, []⟩, [])).2.length = ([] : TaskPipe).length + 1 :=
  ⟨(Update_same_asset (fun _ => false)
      ⟨5, 44100, 2, true, false, none, [], some 4, true, [1, 2]⟩
      ⟨"buf", 0, none, []⟩ []).2.1 (by decide) (fun _ => false),
    (Update_same_asset (fun _ => false)
      ⟨5, 44100, 2, true, false, none, [], some 4, true, [1, 2]⟩
      ⟨"buf", 0, none, []⟩ []).2.2.1 (by decide) [fun _ => false, fun _ => true]⟩

/-- C7 (counterexample): the loader already stores key 5 (its task 0 is in the pipe) and
the asset bound has key 5: two `Update` calls in a row launch no task at all, not one. -/
theorem Update_twice_stored_key :
    (WaveAssetDataRef.Update (fun _ => false)
      (some ⟨5, 44100, 2, true, false, none, [], some 4, true, [1, 2]⟩)
      (WaveAssetDataRef.Update (fun _ => false)
        (some ⟨5, 44100, 2, true, false, none, [], some 4, true, [1, 2]⟩)
        ⟨"buf", 5, some 0, []⟩
        [("buf", ⟨5, 44100, 2, true, false, none, [], some 4, true, [1, 2]⟩)]).1
      (WaveAssetDataRef.Update (fun _ => false)
        (some ⟨5, 44100, 2, true, false, none, [], some 4, true, [1, 2]⟩)
        ⟨"buf", 5, some 0, []⟩
        [("buf", ⟨5, 44100, 2, true, false, none, [], some 4, true, [1, 2]⟩)]).2).2.length =
      ([("buf", ⟨5, 44100, 2, true, false, none, [], some 4, true, [1, 2]⟩)] :
        TaskPipe).length := by
  decide

theorem decode_none_iff (w : FSoundWaveProxy) :
    decode w = none ↔
      w.hasFactory = false ∨ (w.isStreaming = true ∧ w.streamInfo = none) ∨
      (w.isStreaming = false ∧ (w.readInfo = none ∨ w.readOk = false)) := by
  unfold decode
  cases w.hasFactory <;> cases w.isStreaming <;> cases w.streamInfo <;> cases w.readInfo <;>
    cases w.readOk <;> simp

/-- C8 (counterexample): a loader whose stored key is 1 is updated with an asset of key 2
that has no format handler.  The task fails and installs nothing, yet the stored key is
now 2, not the key it had before that `Update`. -/
theorem Update_failed_decode_changes_key :
    decode ⟨2, 44100, 2, false, false, none, [], none, false, []⟩ = none ∧
    runTask "buf" ⟨2, 44100, 2, false, false, none, [], none, false, []⟩
      [("buf", ⟨[0, 1], 8, 1, 44100⟩)] = [("buf", ⟨[0, 1], 8, 1, 44100⟩)] ∧
    (WaveAssetDataRef.Update (fun _ => true)
      (some ⟨2, 44100, 2, false, false, none, [], none, false, []⟩)
      ⟨"buf", 1, none, []⟩ []).1.WaveAssetProxyKey = 2 ∧
    (WaveAssetDataRef.Update (fun _ => true)
      (some ⟨2, 44100, 2, false, false, none, [], none, false, []⟩)
      ⟨"buf", 1, none, []⟩ []).1.WaveAssetProxyKey ≠
        (⟨"buf", 1, none, []⟩ : WaveAssetDataRef).WaveAssetProxyKey := by
  refine ⟨by decide, by decide, by decide, by decide⟩

/-- C8 (as the code has it): when the task launched by `Update` fails (no format
handler, stream-info or compressed-info failure, read failure) it installs nothing, the
engine keeping what it held; the stored key is nevertheless the key of the asset whose
decode failed, `Update` having set it before the launch, and a further `Update` on the
same asset launches nothing. -/
theorem Update_failed_decode (c : TaskId → Bool) (w : FSoundWaveProxy)
    (self : WaveAssetDataRef) (pipe : TaskPipe) (core : CoreObject)
    (hfail : w.hasFactory = false ∨ (w.isStreaming = true ∧ w.streamInfo = none) ∨
      (w.isStreaming = false ∧ (w.readInfo = none ∨ w.readOk = false))) :
    runTask self.Id w core = core ∧
    (WaveAssetDataRef.Update c (some w) self pipe).1.WaveAssetProxyKey = w.key ∧
    ∀ c2, WaveAssetDataRef.Update c2 (some w) (WaveAssetDataRef.Update c (some w) self pipe).1
        (WaveAssetDataRef.Update c (some w) self pipe).2 =
      WaveAssetDataRef.Update c (some w) self pipe := by
  refine ⟨?_, Update_key c w self pipe, fun c2 => ?_⟩
  · unfold runTask
    rw [(decode_none_iff w).mpr hfail]
  · exact Update_same_key c2 w _ _ (Update_key c w self pipe).symm

/-- C8 (witness): a non-streaming asset whose compressed data cannot be read. -/
theorem Update_failed_decode_witness :
    runTask "buf" ⟨2, 44100, 2, true, false, none, [], some 8, false, []⟩
      [("buf", ⟨[0, 1], 8, 1, 44100⟩)] = [("buf", ⟨[0, 1], 8, 1, 44100⟩)] ∧
    (WaveAssetDataRef.Update (fun _ => true)
      (some ⟨2, 44100, 2, true, false, none, [], some 8, false, []⟩)
      ⟨"buf", 1, none, []⟩ []).1.WaveAssetProxyKey = 2 ∧
    ∀ c2, WaveAssetDataRef.Update c2
        (some ⟨2, 44100, 2, true, false, none, [], some 8, false, []⟩)
        (WaveAssetDataRef.Update (fun _ => true)
          (some ⟨2, 44100, 2, true, false, none, [], some 8, false, []⟩)
          ⟨"buf", 1, none, []⟩ []).1
        (WaveAssetDataRef.Update (fun _ => true)
          (some ⟨2, 44100, 2, true, false, none, [], some 8, false, []⟩)
          ⟨"buf", 1, none, []⟩ []).2 =
      WaveAssetDataRef.Update (fun _ => true)
        (some ⟨2, 44100, 2, true, false, none, [], some 8, false, []⟩)
        ⟨"buf", 1, none, []⟩ [] :=
  Update_failed_decode (fun _ => true)
    ⟨2, 44100, 2, true, false, none, [], some 8, false, []⟩ ⟨"buf", 1, none, []⟩ []
    [("buf", ⟨[0, 1], 8, 1, 44100⟩)] (Or.inr (Or.inr ⟨rfl, Or.inr rfl⟩))

theorem wrapInt16_range (i : Int) : -32768 ≤ wrapInt16 i ∧ wrapInt16 i ≤ 32767 := by
  unfold wrapInt16
  constructor <;> omega

theorem int16View_range (size : Nat) (words : List Int) :
    ∀ s ∈ int16View size words, -32768 ≤ s ∧ s ≤ 32767 := by
  intro s hs
  unfold int16View at hs
  have hs2 := List.mem_of_mem_take hs
  rcases List.mem_append.mp hs2 with h | h
  · obtain ⟨i, _, hi⟩ := List.mem_map.mp h
    rw [← hi]
    exact wrapInt16_range i
  · rw [List.eq_of_mem_replicate h]
    constructor <;> decide

theorem decode_range (w : FSoundWaveProxy) (data : List Int) (h : decode w = some data) :
    ∀ s ∈ data, -32768 ≤ s ∧ s ≤ 32767 := by
  unfold decode at h
  split at h
  · simp at h
  · split at h
    · split at h
      · simp at h
      · rw [← Option.some.inj h]
        exact int16View_range _ _
    · split at h
      · simp at h
      · split at h
        · rw [← Option.some.inj h]
          exact int16View_range _ _
        · simp at h

/-- C9 (counterexample): the 16-bit sample -32768 is normalised to a value below -1. -/
theorem normalizeSample_int16_min :
    (-32768 : Int) ≤ -32768 ∧ (-32768 : Int) ≤ 32767 ∧ normalizeSample (-32768) < -1 := by
  refine ⟨by decide, by decide, ?_⟩
  norm_num [normalizeSample, INT16_MAX]

/-- C9 (as the code has it): for every 16-bit sample `s` the installed value
`s / INT16_MAX` lies between `-32768/32767` and `1`; it lies in `[-1, 1]` exactly when
`s` is not -32768.  Every sample the decode task installs is such a value. -/
theorem normalizeSample_bounds (s : Int) (hlo : -32768 ≤ s) (hhi : s ≤ 32767) :
    -(32768 / 32767 : ℚ) ≤ normalizeSample s ∧ normalizeSample s ≤ 1 ∧
    (-1 ≤ normalizeSample s ↔ s ≠ -32768) ∧
    ∀ (w : FSoundWaveProxy) (data : List Int), decode w = some data →
      ∀ x ∈ data.map normalizeSample, -(32768 / 32767 : ℚ) ≤ x ∧ x ≤ 1 := by
  have key : ∀ t : Int, -32768 ≤ t → t ≤ 32767 →
      -(32768 / 32767 : ℚ) ≤ normalizeSample t ∧ normalizeSample t ≤ 1 := by
    intro t h1 h2
    have h1q : (-32768 : ℚ) ≤ (t : ℚ) := by exact_mod_cast h1
    have h2q : (t : ℚ) ≤ 32767 := by exact_mod_cast h2
    unfold normalizeSample INT16_MAX
    constructor
    · rw [le_div_iff₀ (by norm_num)]
      push_cast
      linarith
    · rw [div_le_one (by norm_num)]
      push_cast
      linarith
  refine ⟨(key s hlo hhi).1, (key s hlo hhi).2, ?_, ?_⟩
  · unfold normalizeSample INT16_MAX
    rw [le_div_iff₀ (by norm_num)]
    push_cast
    constructor
    · intro h hs
      rw [hs] at h
      norm_num at h
    · intro hne
      have h3 : -32767 ≤ s := by omega
      have h3q : (-32767 : ℚ) ≤ (s : ℚ) := by exact_mod_cast h3
      linarith
  · intro w data hd x hx
    obtain ⟨t, ht, hxt⟩ := List.mem_map.mp hx
    rw [← hxt]
    exact key t (decode_range w data hd t ht).1 (decode_range w data hd t ht).2

/-- C9 (witness): the sample 32767 is normalised to 1. -/
theorem normalizeSample_bounds_witness :
    -(32768 / 32767 : ℚ) ≤ normalizeSample 32767 ∧ normalizeSample 32767 ≤ 1 ∧
    (-1 ≤ normalizeSample 32767 ↔ (32767 : Int) ≠ -32768) ∧
    ∀ (w : FSoundWaveProxy) (data : List Int), decode w = some data →
      ∀ x ∈ data.map normalizeSample, -(32768 / 32767 : ℚ) ≤ x ∧ x ≤ 1 :=
  normalizeSample_bounds 32767 (by decide) (by decide)

/-! ## Theorems: the transport section of `Execute` -/

/-- C10 (counterexample): the last-forwarded beat time is 0 and the host reports -1, a
different value; nothing is forwarded and the snapshot keeps 0. -/
theorem ExecuteTransport_negative_beat_time :
    (⟨-1, 120, true, 4, 4⟩ : FTransport).beatTime ≠
      (⟨0, 120, true, 4, 4⟩ : LastTransport).LastTransportBeatTime ∧
    ExecuteTransport (some ⟨-1, 120, true, 4, 4⟩) ⟨0, 120, true, 4, 4⟩ =
      (⟨0, 120, true, 4, 4⟩, []) := by
  constructor
  · norm_num
  · simp [ExecuteTransport, stepBeatTime, stepTempo, stepRun, stepTimeSig]

/-- C10 (as the code has it): with transport declared, each of beat time, tempo, run flag
and time signature is forwarded, as its own event at time zero and in this order,
exactly when its value this block differs from the last-forwarded one, the value of beat
time and of tempo being the reported one clamped below at zero and the time signature
counting as changed when numerator or denominator differs; the snapshot afterwards holds
these values (so an unchanged quantity keeps its entry); without transport nothing is
forwarded and the snapshot is kept. -/
theorem ExecuteTransport_forwards_changes (t : FTransport) (last : LastTransport) :
    ExecuteTransport (some t) last =
      (⟨max 0 t.beatTime, max 0 t.bpm, t.run, t.num, t.den⟩,
        (if last.LastTransportBeatTime ≠ max 0 t.beatTime
          then [TransportEvt.BeatTimeEvent 0 (max 0 t.beatTime)] else []) ++
        (if last.LastTransportBPM ≠ max 0 t.bpm
          then [TransportEvt.TempoEvent 0 (max 0 t.bpm)] else []) ++
        (if last.LastTransportRun ≠ t.run
          then [TransportEvt.TransportEvent 0 t.run] else []) ++
        (if last.LastTransportNum ≠ t.num ∨ last.LastTransportDen ≠ t.den
          then [TransportEvt.TimeSignatureEvent 0 t.num t.den] else [])) ∧
    ExecuteTransport none last = (last, []) := by
  refine ⟨?_, rfl⟩
  obtain ⟨lb, lt, lr, ln, ld⟩ := last
  unfold ExecuteTransport stepTimeSig stepRun stepTempo stepBeatTime
  by_cases h1 : lb = max 0 t.beatTime <;> by_cases h2 : lt = max 0 t.bpm <;>
    by_cases h3 : lr = t.run <;> by_cases h4 : ln = t.num <;> by_cases h5 : ld = t.den <;>
    simp [h1, h2, h3, h4, h5]

theorem ExecuteTransport_snapshot (t : FTransport) (last : LastTransport) :
    (ExecuteTransport (some t) last).1 = ⟨max 0 t.beatTime, max 0 t.bpm, t.run, t.num, t.den⟩ := by
  obtain ⟨lb, lt, lr, ln, ld⟩ := last
  unfold ExecuteTransport stepTimeSig stepRun stepTempo stepBeatTime
  by_cases h1 : lb = max 0 t.beatTime <;> by_cases h2 : lt = max 0 t.bpm <;>
    by_cases h3 : lr = t.run <;> by_cases h4 : ln = t.num <;> by_cases h5 : ld = t.den <;>
    simp [h1, h2, h3, h4, h5]

theorem ExecuteTransport_settled (t : FTransport) :
    ExecuteTransport (some t) ⟨max 0 t.beatTime, max 0 t.bpm, t.run, t.num, t.den⟩ =
      (⟨max 0 t.beatTime, max 0 t.bpm, t.run, t.num, t.den⟩, []) := by
  simp [ExecuteTransport, stepTimeSig, stepRun, stepTempo, stepBeatTime]

/-- C11: from the freshly constructed snapshot (beat time -1, tempo 0, not running, 0/0),
a block reporting beat time 0, or 1.5, with tempo 120, running, 4/4 forwards exactly the
four transport events, and the block after it with the same values forwards none; in
general a block whose transport values equal those of the block before forwards no
transport event. -/
theorem transport_scenario :
    ExecuteTransport (some ⟨0, 120, true, 4, 4⟩) LastTransport.initial =
      (⟨0, 120, true, 4, 4⟩,
        [TransportEvt.BeatTimeEvent 0 0, TransportEvt.TempoEvent 0 120,
          TransportEvt.TransportEvent 0 true, TransportEvt.TimeSignatureEvent 0 4 4]) ∧
    ExecuteTransport (some ⟨3 / 2, 120, true, 4, 4⟩) LastTransport.initial =
      (⟨3 / 2, 120, true, 4, 4⟩,
        [TransportEvt.BeatTimeEvent 0 (3 / 2), TransportEvt.TempoEvent 0 120,
          TransportEvt.TransportEvent 0 true, TransportEvt.TimeSignatureEvent 0 4 4]) ∧
    (ExecuteTransport (some ⟨0, 120, true, 4, 4⟩)
      (ExecuteTransport (some ⟨0, 120, true, 4, 4⟩) LastTransport.initial).1).2 = [] ∧
    (ExecuteTransport (some ⟨3 / 2, 120, true, 4, 4⟩)
      (ExecuteTransport (some ⟨3 / 2, 120, true, 4, 4⟩) LastTransport.initial).1).2 = [] ∧
    (∀ (t : FTransport) (last : LastTransport),
      (ExecuteTransport (some t) (ExecuteTransport (some t) last).1).2 = []) ∧
    (∀ last : LastTransport, (ExecuteTransport none (ExecuteTransport none last).1).2 = []) := by
  have hgen : ∀ (t : FTransport) (last : LastTransport),
      (ExecuteTransport (some t) (ExecuteTransport (some t) last).1).2 = [] := by
    intro t last
    rw [ExecuteTransport_snapshot, ExecuteTransport_settled]
  refine ⟨?_, ?_, hgen _ _, hgen _ _, hgen, fun _ => rfl⟩
  · simp [ExecuteTransport, stepTimeSig, stepRun, stepTempo, stepBeatTime,
      LastTransport.initial]
  · simp [ExecuteTransport, stepTimeSig, stepRun, stepTempo, stepBeatTime,
      LastTransport.initial]
    norm_num

/-! ## Theorems: the input-parameter section of `Execute` -/

theorem forwardParam_eq {ε : Type} (I : ParameterInterface ε)
    (s : ε × List (ParameterIndex × ℚ)) (c : ParameterIndex × ℚ) :
    (c.2 ≠ I.getParameterValue s.1 c.1 →
      forwardParam I s c = (I.setParameterValue s.1 c.1 c.2, s.2 ++ [c])) ∧
    (c.2 = I.getParameterValue s.1 c.1 → forwardParam I s c = s) := by
  unfold forwardParam
  constructor
  · intro h; simp [h]
  · intro h; simp [h]

theorem foldl_forward_mem {ε : Type} (I : ParameterInterface ε) :
    ∀ (xs : List (ParameterIndex × ℚ)) (s : ε × List (ParameterIndex × ℚ)),
      ∀ c ∈ (xs.foldl (forwardParam I) s).2, c ∈ s.2 ∨ c ∈ xs := by
  intro xs
  induction xs with
  | nil => intro s c hc; exact Or.inl hc
  | cons x xs ih =>
    intro s c hc
    rw [List.foldl_cons] at hc
    rcases ih _ c hc with h | h
    · by_cases hx : x.2 ≠ I.getParameterValue s.1 x.1
      · rw [(forwardParam_eq I s x).1 hx] at h
        rcases List.mem_append.mp h with h1 | h1
        · exact Or.inl h1
        · right
          rw [List.mem_singleton.mp h1]
          exact List.mem_cons_self _ _
      · rw [(forwardParam_eq I s x).2 (not_not.mp hx)] at h
        exact Or.inl h
    · exact Or.inr (List.mem_cons_of_mem _ h)

theorem foldl_forward_stores {ε : Type} (I : ParameterInterface ε) (hI : StoresValues I) :
    ∀ (xs : List (ParameterIndex × ℚ)) (e : ε) (log : List (ParameterIndex × ℚ)),
      (xs.map Prod.fst).Nodup →
      (xs.foldl (forwardParam I) (e, log)).2 =
          log ++ xs.filter (fun c => decide (c.2 ≠ I.getParameterValue e c.1)) ∧
        (∀ j, j ∉ xs.map Prod.fst →
          I.getParameterValue (xs.foldl (forwardParam I) (e, log)).1 j =
            I.getParameterValue e j) ∧
        (∀ c ∈ xs, I.getParameterValue (xs.foldl (forwardParam I) (e, log)).1 c.1 = c.2) := by
  intro xs
  induction xs with
  | nil => intro e log _; simp
  | cons x xs ih =>
    intro e log hnd
    rw [List.map_cons, List.nodup_cons] at hnd
    obtain ⟨hx, hnd⟩ := hnd
    rw [List.foldl_cons]
    have hstep : ∃ e1 log1, forwardParam I (e, log) x = (e1, log1) ∧
        log1 = log ++ [x].filter (fun c => decide (c.2 ≠ I.getParameterValue e c.1)) ∧
        (∀ j, I.getParameterValue e1 j = if j = x.1 then x.2 else I.getParameterValue e j) := by
      by_cases h : x.2 ≠ I.getParameterValue e x.1
      · refine ⟨_, _, (forwardParam_eq I (e, log) x).1 h, ?_, ?_⟩
        · simp [h]
        · intro j; exact hI e x.1 x.2 j
      · have h2 := not_not.mp h
        refine ⟨e, log, (forwardParam_eq I (e, log) x).2 h2, ?_, ?_⟩
        · simp [h2]
        · intro j
          by_cases hj : j = x.1
          · rw [hj, if_pos rfl, h2]
          · rw [if_neg hj]
    obtain ⟨e1, log1, hf, hlog, hget⟩ := hstep
    rw [hf]
    obtain ⟨ih1, ih2, ih3⟩ := ih e1 log1 hnd
    have hsame : ∀ c ∈ xs, I.getParameterValue e1 c.1 = I.getParameterValue e c.1 := by
      intro c hc
      rw [hget c.1, if_neg]
      intro h
      exact hx (h ▸ List.mem_map_of_mem Prod.fst hc)
    refine ⟨?_, ?_, ?_⟩
    · rw [ih1, hlog, List.append_assoc]
      congr 1
      rw [List.filter_cons]
      have hfilt : xs.filter (fun c => decide (c.2 ≠ I.getParameterValue e1 c.1)) =
          xs.filter (fun c => decide (c.2 ≠ I.getParameterValue e c.1)) := by
        apply List.filter_congr
        intro c hc
        rw [hsame c hc]
      rw [hfilt]
      by_cases h : x.2 ≠ I.getParameterValue e x.1
      · simp [h]
      · simp [not_not.mp h]
    · intro j hj
      rw [List.map_cons, List.mem_cons, not_or] at hj
      rw [ih2 j hj.2, hget j, if_neg hj.1]
    · intro c hc
      rcases List.mem_cons.mp hc with h | h
      · rw [h, ih2 x.1 hx, hget x.1, if_pos rfl]
      · exact ih3 c h

theorem ExecuteInputParams_eq {ε : Type} (I : ParameterInterface ε)
    (floats : List (ParameterIndex × ℚ)) (ints : List (ParameterIndex × Int))
    (bools : List (ParameterIndex × Bool)) (e : ε) :
    ExecuteInputParams I floats ints bools e =
      (floats ++ ints.map (fun x => (x.1, (x.2 : ℚ))) ++
        bools.map (fun x => (x.1, if x.2 then (1 : ℚ) else 0))).foldl
        (forwardParam I) (e, []) := rfl

theorem forwardParam_ite {ε : Type} (I : ParameterInterface ε) (e : ε) (i : ParameterIndex)
    (v : ℚ) :
    forwardParam I (e, []) (i, v) =
      if v ≠ I.getParameterValue e i then (I.setParameterValue e i v, [(i, v)]) else (e, []) := by
  unfold forwardParam
  by_cases h : v = I.getParameterValue e i
  · simp [h]
  · simp [h]

/-- C12: the input-parameter section of `Execute` runs the forwarding body over the
float entries, then the int entries converted to double, then the bool entries as `1.0`
or `0.0`.  A block with a single float, int or bool parameter calls
`setParameterValue(i, v)` with that double exactly when it differs from
`getParameterValue(i)`, and does nothing otherwise; in any block, an entry reached with
the engine in some state is forwarded exactly when its value differs from
`getParameterValue(i)` there; every call made carries the index and the converted host
value of an entry; and for an engine that stores what is set, with no index repeated,
the calls of the block are exactly the entries, of all three tables, whose value differs
from the engine's value at the start of the block. -/
theorem input_params_forwarded {ε : Type} (I : ParameterInterface ε)
    (floats : List (ParameterIndex × ℚ)) (ints : List (ParameterIndex × Int))
    (bools : List (ParameterIndex × Bool)) (e : ε) :
    ExecuteInputParams I floats ints bools e =
      (floats ++ ints.map (fun x => (x.1, (x.2 : ℚ))) ++
        bools.map (fun x => (x.1, if x.2 then (1 : ℚ) else 0))).foldl
        (forwardParam I) (e, []) ∧
    (∀ (i : ParameterIndex) (v : ℚ), ExecuteInputParams I [(i, v)] [] [] e =
      if v ≠ I.getParameterValue e i then (I.setParameterValue e i v, [(i, v)])
      else (e, [])) ∧
    (∀ (i : ParameterIndex) (n : Int), ExecuteInputParams I [] [(i, n)] [] e =
      if (n : ℚ) ≠ I.getParameterValue e i then
        (I.setParameterValue e i (n : ℚ), [(i, (n : ℚ))])
      else (e, [])) ∧
    (∀ (i : ParameterIndex) (b : Bool), ExecuteInputParams I [] [] [(i, b)] e =
      if (if b then (1 : ℚ) else 0) ≠ I.getParameterValue e i then
        (I.setParameterValue e i (if b then (1 : ℚ) else 0), [(i, if b then (1 : ℚ) else 0)])
      else (e, [])) ∧
    (∀ pre c post,
      (floats ++ ints.map (fun x => (x.1, (x.2 : ℚ))) ++
        bools.map (fun x => (x.1, if x.2 then (1 : ℚ) else 0))) = pre ++ c :: post →
      (c.2 ≠ I.getParameterValue (pre.foldl (forwardParam I) (e, [])).1 c.1 →
        (pre ++ [c]).foldl (forwardParam I) (e, []) =
          (I.setParameterValue (pre.foldl (forwardParam I) (e, [])).1 c.1 c.2,
            (pre.foldl (forwardParam I) (e, [])).2 ++ [c])) ∧
      (c.2 = I.getParameterValue (pre.foldl (forwardParam I) (e, [])).1 c.1 →
        (pre ++ [c]).foldl (forwardParam I) (e, []) = pre.foldl (forwardParam I) (e, []))) ∧
    (∀ c ∈ (ExecuteInputParams I floats ints bools e).2,
      c ∈ (floats ++ ints.map (fun x => (x.1, (x.2 : ℚ))) ++
        bools.map (fun x => (x.1, if x.2 then (1 : ℚ) else 0)))) ∧
    (StoresValues I →
      ((floats ++ ints.map (fun x => (x.1, (x.2 : ℚ))) ++
        bools.map (fun x => (x.1, if x.2 then (1 : ℚ) else 0))).map Prod.fst).Nodup →
      (ExecuteInputParams I floats ints bools e).2 =
        (floats ++ ints.map (fun x => (x.1, (x.2 : ℚ))) ++
        bools.map (fun x => (x.1, if x.2 then (1 : ℚ) else 0))).filter
          (fun c => decide (c.2 ≠ I.getParameterValue e c.1)) ∧
      (∀ x ∈ floats, x ∈ (ExecuteInputParams I floats ints bools e).2 ↔
        x.2 ≠ I.getParameterValue e x.1) ∧
      (∀ x ∈ ints, (x.1, (x.2 : ℚ)) ∈ (ExecuteInputParams I floats ints bools e).2 ↔
        (x.2 : ℚ) ≠ I.getParameterValue e x.1) ∧
      (∀ x ∈ bools,
        (x.1, if x.2 then (1 : ℚ) else 0) ∈ (ExecuteInputParams I floats ints bools e).2 ↔
          (if x.2 then (1 : ℚ) else 0) ≠ I.getParameterValue e x.1)) := by
  refine ⟨rfl, ?_, ?_, ?_, ?_, ?_, ?_⟩
  · intro i v
    exact forwardParam_ite I e i v
  · intro i n
    exact forwardParam_ite I e i (n : ℚ)
  · intro i b
    exact forwardParam_ite I e i (if b then (1 : ℚ) else 0)
  · intro pre c post _
    rw [List.foldl_append, List.foldl_cons, List.foldl_nil]
    exact forwardParam_eq I _ c
  · intro c hc
    rw [ExecuteInputParams_eq] at hc
    rcases foldl_forward_mem I _ _ c hc with h | h
    · simp at h
    · exact h
  · intro hI hnd
    have hcalls : (ExecuteInputParams I floats ints bools e).2 =
        (floats ++ ints.map (fun x => (x.1, (x.2 : ℚ))) ++
        bools.map (fun x => (x.1, if x.2 then (1 : ℚ) else 0))).filter
          (fun c => decide (c.2 ≠ I.getParameterValue e c.1)) := by
      rw [ExecuteInputParams_eq]
      simpa using (foldl_forward_stores I hI _ e [] hnd).1
    refine ⟨hcalls, ?_, ?_, ?_⟩
    · intro x hx
      rw [hcalls, List.mem_filter]
      simp only [decide_eq_true_eq]
      constructor
      · exact fun h => h.2
      · exact fun h => ⟨List.mem_append_left _ (List.mem_append_left _ hx), h⟩
    · intro x hx
      rw [hcalls, List.mem_filter]
      simp only [decide_eq_true_eq]
      constructor
      · exact fun h => h.2
      · refine fun h => ⟨List.mem_append_left _ (List.mem_append_right _ ?_), h⟩
        exact List.mem_map.mpr ⟨x, hx, rfl⟩
    · intro x hx
      rw [hcalls, List.mem_filter]
      simp only [decide_eq_true_eq]
      constructor
      · exact fun h => h.2
      · refine fun h => ⟨List.mem_append_right _ ?_, h⟩
        exact List.mem_map.mpr ⟨x, hx, rfl⟩

theorem hasKey_cons {β : Type} (k k1 : Nat) (x : β) (t : List (Nat × β)) :
    hasKey k ((k1, x) :: t) = (k1 == k || hasKey k t) := by
  simp [hasKey]

theorem cell_setCell {β : Type} (k : Nat) (v : β) :
    ∀ (t : List (Nat × β)) (j : Nat),
      cell j (setCell k v t) = if j = k ∧ hasKey k t = true then some v else cell j t := by
  intro t
  induction t with
  | nil => intro j; simp [setCell, cell, hasKey]
  | cons e rest ih =>
    intro j
    obtain ⟨k1, x⟩ := e
    unfold setCell
    by_cases h1 : k1 = k
    · subst h1
      by_cases hj : j = k1
      · subst hj
        simp [cell, hasKey_cons]
      · have : ¬ k1 = j := fun h => hj h.symm
        simp [cell, hj, this]
    · by_cases hj : j = k
      · subst hj
        simp [h1, cell, ih, hasKey_cons]
      · simp only [if_neg h1, cell, ih, hj, false_and, if_false]

theorem keys_setCell {β : Type} (k : Nat) (v : β) :
    ∀ t : List (Nat × β), (setCell k v t).map Prod.fst = t.map Prod.fst := by
  intro t
  induction t with
  | nil => rfl
  | cons e rest ih =>
    obtain ⟨k1, x⟩ := e
    unfold setCell
    by_cases h1 : k1 = k
    · simp [h1]
    · simp [h1, ih]

theorem cell_eq_none_iff {β : Type} (k : Nat) :
    ∀ t : List (Nat × β), cell k t = none ↔ hasKey k t = false := by
  intro t
  induction t with
  | nil => simp [cell, hasKey]
  | cons e rest ih =>
    obtain ⟨k1, x⟩ := e
    by_cases h1 : k1 = k
    · simp [cell, h1, hasKey_cons]
    · simp [cell, h1, hasKey_cons, ih]

theorem log2_eq (x : ℚ) (k : ℤ) (h1 : (2 : ℚ) ^ k ≤ x) (h2 : x < (2 : ℚ) ^ (k + 1)) :
    Int.log 2 x = k := by
  have hx : 0 < x := lt_of_lt_of_le (zpow_pos (by norm_num) k) h1
  have a : k ≤ Int.log 2 x := by
    rw [← Int.zpow_le_iff_le_log (by norm_num) hx]
    simpa using h1
  have b : Int.log 2 x < k + 1 := by
    rw [← Int.lt_zpow_iff_log_lt (by norm_num) hx]
    simpa using h2
  omega

theorem toFloat32_of_binade (v : ℚ) (k : ℤ) (hk : -126 ≤ k) (h1 : (2 : ℚ) ^ k ≤ |v|)
    (h2 : |v| < (2 : ℚ) ^ (k + 1)) :
    toFloat32 v = (roundHalfEven (v / 2 ^ (k - 23)) : ℚ) * 2 ^ (k - 23) := by
  unfold toFloat32
  rw [log2_eq |v| k h1 h2, max_eq_left hk]

theorem toFloat32_five_halves : toFloat32 (5 / 2) = 5 / 2 := by
  rw [toFloat32_of_binade (5 / 2) 1 (by norm_num) (by norm_num [abs_of_pos])
    (by norm_num [abs_of_pos])]
  have h : ((5 / 2 : ℚ) / 2 ^ ((1 : ℤ) - 23)) = 10485760 := by norm_num
  rw [h]
  have hr : roundHalfEven 10485760 = 10485760 := by
    unfold roundHalfEven
    norm_num
  rw [hr]
  norm_num

theorem toFloat32_one_third : toFloat32 (1 / 3) = 11184811 / 33554432 := by
  rw [toFloat32_of_binade (1 / 3) (-2) (by norm_num) (by norm_num [abs_of_pos])
    (by norm_num [abs_of_pos])]
  have h : ((1 / 3 : ℚ) / 2 ^ ((-2 : ℤ) - 23)) = 11184810 + 2 / 3 := by norm_num
  rw [h]
  have hf : ⌊(11184810 + 2 / 3 : ℚ)⌋ = 11184810 := by
    rw [Int.floor_eq_iff]; norm_num
  have hr : roundHalfEven (11184810 + 2 / 3) = 11184811 := by
    unfold roundHalfEven
    rw [hf]
    norm_num
  rw [hr]
  norm_num

theorem toFloat32_tie_to_even : toFloat32 (1 + 1 / 2 ^ 24) = 1 := by
  rw [toFloat32_of_binade (1 + 1 / 2 ^ 24) 0 (by norm_num) (by norm_num [abs_of_pos])
    (by norm_num [abs_of_pos])]
  have h : ((1 + 1 / 2 ^ 24 : ℚ) / 2 ^ ((0 : ℤ) - 23)) = 8388608 + 1 / 2 := by norm_num
  rw [h]
  have hf : ⌊(8388608 + 1 / 2 : ℚ)⌋ = 8388608 := by
    rw [Int.floor_eq_iff]; norm_num
  have hr : roundHalfEven (8388608 + 1 / 2) = 8388608 := by
    unfold roundHalfEven
    rw [hf]
    norm_num
  rw [hr]
  norm_num

/-- C14: `handleParameterEvent(i, v)` looks `i` up in the bool-, then the float-, then
the int-output table and writes the first match only: a bool cell receives `v != 0`, a
float cell `v` converted to float, an int cell `v` truncated toward zero when that fits
in 32 bits (the conversion is undefined when it does not).  A write changes the cell
keyed `i` of that table and no other cell: the keys are as before and every other lookup
gives what it gave. -/
theorem handleParameterEvent_writes (castFloat : ℚ → ℚ) (index : ParameterIndex)
    (value : ℚ) (self : FRNBOOperator) :
    (hasKey index self.mOutputBoolParams = true →
      self.handleParameterEvent castFloat index value =
        some { self with
          mOutputBoolParams := setCell index (decide (value ≠ 0)) self.mOutputBoolParams }) ∧
    (hasKey index self.mOutputBoolParams = false →
      hasKey index self.mOutputFloatParams = true →
      self.handleParameterEvent castFloat index value =
        some { self with
          mOutputFloatParams := setCell index (castFloat value) self.mOutputFloatParams }) ∧
    (hasKey index self.mOutputBoolParams = false →
      hasKey index self.mOutputFloatParams = false →
      hasKey index self.mOutputIntParams = true →
      -(2 ^ 31 : Int) ≤ (if 0 ≤ value then ⌊value⌋ else ⌈value⌉) →
      (if 0 ≤ value then ⌊value⌋ else ⌈value⌉) < 2 ^ 31 →
      self.handleParameterEvent castFloat index value =
        some { self with
          mOutputIntParams :=
            setCell index (if 0 ≤ value then ⌊value⌋ else ⌈value⌉) self.mOutputIntParams }) ∧
    (hasKey index self.mOutputBoolParams = false →
      hasKey index self.mOutputFloatParams = false →
      hasKey index self.mOutputIntParams = true →
      ¬ (-(2 ^ 31 : Int) ≤ (if 0 ≤ value then ⌊value⌋ else ⌈value⌉) ∧
        (if 0 ≤ value then ⌊value⌋ else ⌈value⌉) < 2 ^ 31) →
      self.handleParameterEvent castFloat index value = none) ∧
    (∀ (β : Type) (t : List (Nat × β)) (v : β),
      (setCell index v t).map Prod.fst = t.map Prod.fst ∧
      (hasKey index t = true → cell index (setCell index v t) = some v) ∧
      ∀ j, j ≠ index → cell j (setCell index v t) = cell j t) := by
  refine ⟨?_, ?_, ?_, ?_, ?_⟩
  · intro hb
    simp [FRNBOOperator.handleParameterEvent, hb]
  · intro hb hf
    simp [FRNBOOperator.handleParameterEvent, hb, hf]
  · intro hb hf hi hlo hhi
    have hn : toInt32 value = some (if 0 ≤ value then ⌊value⌋ else ⌈value⌉) := by
      unfold toInt32 truncQ
      rw [if_pos ⟨hlo, hhi⟩]
    simp [FRNBOOperator.handleParameterEvent, hb, hf, hi, hn]
  · intro hb hf hi hout
    have hn : toInt32 value = none := by
      unfold toInt32 truncQ
      rw [if_neg hout]
    simp [FRNBOOperator.handleParameterEvent, hb, hf, hi, hn]
  · intro β t v
    refine ⟨keys_setCell index v t, ?_, ?_⟩
    · intro h
      rw [cell_setCell, if_pos ⟨rfl, h⟩]
    · intro j hj
      rw [cell_setCell, if_neg (fun h => hj h.1)]

/-- C14 (witness): on an operator with a float cell keyed 1, an int cell keyed 2 and a
bool cell keyed 3, the event (3, 5/2) writes `true` to the bool cell, (1, 1/3) writes the
single-precision value 11184811/33554432 to the float cell, (2, -5/2) writes -2 to the
int cell, each leaving the other cells alone, and (2, 2^31) has no defined result. -/
theorem handleParameterEvent_writes_witness :
    threeCells.handleParameterEvent toFloat32 3 (5 / 2) =
      some ⟨⟨44100, 0⟩, [(1, 0)], [(2, 0)], [(3, true)], [], none, LastTransport.initial, []⟩ ∧
    threeCells.handleParameterEvent toFloat32 1 (1 / 3) =
      some ⟨⟨44100, 0⟩, [(1, 11184811 / 33554432)], [(2, 0)], [(3, false)], [], none,
        LastTransport.initial, []⟩ ∧
    threeCells.handleParameterEvent toFloat32 2 (-5 / 2) =
      some ⟨⟨44100, 0⟩, [(1, 0)], [(2, -2)], [(3, false)], [], none,
        LastTransport.initial, []⟩ ∧
    threeCells.handleParameterEvent toFloat32 2 (2 ^ 31) = none := by
  have hc2 : ⌈(-5 / 2 : ℚ)⌉ = -2 := by
    rw [Int.ceil_eq_iff]; norm_num
  have hf31 : ⌊((2 : ℚ) ^ 31)⌋ = 2 ^ 31 := by
    rw [Int.floor_eq_iff]; norm_num
  refine ⟨?_, ?_, ?_, ?_⟩
  · rw [(handleParameterEvent_writes toFloat32 3 (5 / 2) threeCells).1 (by decide)]
    simp [threeCells, setCell]
  · rw [(handleParameterEvent_writes toFloat32 1 (1 / 3) threeCells).2.1 (by decide)
      (by simp [threeCells, hasKey]), toFloat32_one_third]
    simp [threeCells, setCell]
  · rw [(handleParameterEvent_writes toFloat32 2 (-5 / 2) threeCells).2.2.1 (by decide)
      (by simp [threeCells, hasKey]) (by decide)
      (by rw [if_neg (by norm_num), hc2]; norm_num)
      (by rw [if_neg (by norm_num), hc2]; norm_num)]
    rw [if_neg (by norm_num), hc2]
    simp [threeCells, setCell]
  · exact (handleParameterEvent_writes toFloat32 2 (2 ^ 31) threeCells).2.2.2.1 (by decide)
      (by simp [threeCells, hasKey]) (by decide)
      (by rw [if_pos (by norm_num), hf31]; norm_num)

/-- C15: a parameter-change event whose index is a key of none of the three output
tables returns normally and leaves the operator state as it was. -/
theorem handleParameterEvent_unknown_index (castFloat : ℚ → ℚ) (index : ParameterIndex)
    (value : ℚ) (self : FRNBOOperator)
    (hb : hasKey index self.mOutputBoolParams = false)
    (hf : hasKey index self.mOutputFloatParams = false)
    (hi : hasKey index self.mOutputIntParams = false) :
    self.handleParameterEvent castFloat index value = some self := by
  simp [FRNBOOperator.handleParameterEvent, hb, hf, hi]

/-- C15 (witness): index 7 against tables keyed 1, 2 and 3. -/
theorem handleParameterEvent_unknown_index_witness :
    FRNBOOperator.handleParameterEvent id 7 (5 / 2)
        ⟨⟨44100, 0⟩, [(1, 0)], [(2, 0)], [(3, false)], [], none, LastTransport.initial, []⟩ =
      some ⟨⟨44100, 0⟩, [(1, 0)], [(2, 0)], [(3, false)], [], none, LastTransport.initial, []⟩ :=
  handleParameterEvent_unknown_index id 7 (5 / 2)
    ⟨⟨44100, 0⟩, [(1, 0)], [(2, 0)], [(3, false)], [], none, LastTransport.initial, []⟩
    (by decide) (by simp [hasKey]) (by decide)

/-- C16: a message event that is not a Bang, and a Bang whose tag matches no output
trigger port, leave the operator state as it was; a Bang whose tag matches a port
records one more occurrence on that port, at the frame converted from the event's time,
and changes nothing else: the other ports and every other member are as before. -/
theorem handleMessageEvent_effect (conv : TimeConverter → ℚ → Int)
    (type : MessageEventType) (evTag : MessageTag) (time : ℚ) (self : FRNBOOperator) :
    (type ≠ MessageEventType.Bang →
      self.handleMessageEvent conv type evTag time = self) ∧
    (hasKey evTag self.mOutportTriggerParams = false →
      self.handleMessageEvent conv type evTag time = self) ∧
    (∀ t, type = MessageEventType.Bang → cell evTag self.mOutportTriggerParams = some t →
      self.handleMessageEvent conv type evTag time =
        { self with
          mOutportTriggerParams :=
            setCell evTag ⟨t.frames ++ [wrapInt32 (conv self.Converter time)]⟩
              self.mOutportTriggerParams } ∧
      cell evTag (self.handleMessageEvent conv type evTag time).mOutportTriggerParams =
        some ⟨t.frames ++ [wrapInt32 (conv self.Converter time)]⟩ ∧
      (∀ j, j ≠ evTag →
        cell j (self.handleMessageEvent conv type evTag time).mOutportTriggerParams =
          cell j self.mOutportTriggerParams) ∧
      (self.handleMessageEvent conv type evTag time).mOutportTriggerParams.map Prod.fst =
        self.mOutportTriggerParams.map Prod.fst) := by
  refine ⟨?_, ?_, ?_⟩
  · intro h
    cases type <;> simp [FRNBOOperator.handleMessageEvent] at h ⊢
  · intro h
    have hc := (cell_eq_none_iff evTag self.mOutportTriggerParams).mpr h
    cases type <;> simp [FRNBOOperator.handleMessageEvent, hc]
  · intro t ht hc
    subst ht
    have hk : hasKey evTag self.mOutportTriggerParams = true := by
      cases hkey : hasKey evTag self.mOutportTriggerParams with
      | true => rfl
      | false =>
        rw [(cell_eq_none_iff evTag self.mOutportTriggerParams).mpr hkey] at hc
        exact absurd hc (by simp)
    have heq : self.handleMessageEvent conv MessageEventType.Bang evTag time =
        { self with
          mOutportTriggerParams :=
            setCell evTag ⟨t.frames ++ [wrapInt32 (conv self.Converter time)]⟩
              self.mOutportTriggerParams } := by
      simp [FRNBOOperator.handleMessageEvent, hc, FTrigger.TriggerFrame]
    refine ⟨heq, ?_, ?_, ?_⟩
    · rw [heq]
      show cell evTag (setCell evTag _ self.mOutportTriggerParams) = _
      rw [cell_setCell, if_pos ⟨rfl, hk⟩]
    · intro j hj
      rw [heq]
      show cell j (setCell evTag _ self.mOutportTriggerParams) = _
      rw [cell_setCell, if_neg (fun h => hj h.1)]
    · rw [heq]
      exact keys_setCell evTag _ self.mOutportTriggerParams

/-- C17: `Reset` clears every output trigger port, keeping the ports, and clears the
MIDI-out buffer when MIDI output is declared; the time converter, the float, int and
bool output cells, the last-forwarded transport values and the loaders are as before. -/
theorem Reset_effect (self : FRNBOOperator) :
    self.Reset.mOutportTriggerParams =
      self.mOutportTriggerParams.map (fun e => (e.1, (⟨[]⟩ : FTrigger))) ∧
    (∀ e ∈ self.Reset.mOutportTriggerParams, e.2.frames = []) ∧
    self.Reset.MIDIOut = self.MIDIOut.map (fun _ => (⟨[]⟩ : FMIDIBuffer)) ∧
    (∀ b, self.Reset.MIDIOut = some b → b.packets = []) ∧
    (self.MIDIOut = none → self.Reset.MIDIOut = none) ∧
    self.Reset.Converter = self.Converter ∧
    self.Reset.mOutputFloatParams = self.mOutputFloatParams ∧
    self.Reset.mOutputIntParams = self.mOutputIntParams ∧
    self.Reset.mOutputBoolParams = self.mOutputBoolParams ∧
    self.Reset.Last = self.Last ∧
    self.Reset.mDataRefParams = self.mDataRefParams := by
  refine ⟨rfl, ?_, rfl, ?_, ?_, rfl, rfl, rfl, rfl, rfl, rfl⟩
  · intro e he
    simp only [FRNBOOperator.Reset, List.mem_map] at he
    obtain ⟨a, _, ha⟩ := he
    rw [← ha]
    rfl
  · intro b hb
    simp only [FRNBOOperator.Reset, Option.map_eq_some'] at hb
    obtain ⟨a, _, ha⟩ := hb
    rw [← ha]
    rfl
  · intro h
    simp [FRNBOOperator.Reset, h]

/-! ## Theorems: loader teardown and loader construction -/

theorem LoaderRun_step_tracked (cfinal : TaskId → Bool) (r : LoaderRun) (b : LoaderBlock)
    (hb : ∀ t, b.completed t = true → cfinal t = true)
    (h : ∀ t ∈ r.launched,
      r.loader.Task = some t ∨ some t ∈ r.loader.Cleanup ∨ cfinal t = true) :
    ∀ t ∈ (r.step b).launched,
      (r.step b).loader.Task = some t ∨ some t ∈ (r.step b).loader.Cleanup ∨
        cfinal t = true := by
  unfold LoaderRun.step
  cases hw : b.WaveProxy with
  | none =>
    simpa [WaveAssetDataRef.Update] using h
  | some w =>
    by_cases hk : w.key = r.loader.WaveAssetProxyKey
    · simpa [WaveAssetDataRef.Update, hk] using h
    · intro t ht
      simp only [WaveAssetDataRef.Update, hk, if_false, List.length_append, List.length_singleton,
        Nat.succ_ne_self, List.mem_append, List.mem_singleton] at ht ⊢
      rcases ht with ht | ht
      · rcases h t ht with h1 | h1 | h1
        · cases hc : b.completed t with
          | true => exact Or.inr (Or.inr (hb t hc))
          | false =>
            right; left
            simp [h1, validAndRunning, hc]
        · right; left
          split
          · exact List.mem_append_left _ h1
          · exact h1
        · exact Or.inr (Or.inr h1)
      · left
        rw [ht]

theorem LoaderRun_steps_tracked (cfinal : TaskId → Bool) :
    ∀ (bs : List LoaderBlock) (r : LoaderRun),
      (∀ b ∈ bs, ∀ t, b.completed t = true → cfinal t = true) →
      (∀ t ∈ r.launched,
        r.loader.Task = some t ∨ some t ∈ r.loader.Cleanup ∨ cfinal t = true) →
      ∀ t ∈ (r.steps bs).launched,
        (r.steps bs).loader.Task = some t ∨ some t ∈ (r.steps bs).loader.Cleanup ∨
          cfinal t = true := by
  intro bs
  induction bs with
  | nil => intro r _ h; exact h
  | cons b bs ih =>
    intro r hb h
    show ∀ t ∈ ((r.step b).steps bs).launched, _
    exact ih (r.step b) (fun b1 hb1 => hb b1 (List.mem_cons_of_mem _ hb1))
      (LoaderRun_step_tracked cfinal r b (hb b (List.mem_cons_self _ _)) h)

/-- C18: after any sequence of `Update` calls (other loaders launching on the shared pipe
in between), every task this loader launched that has not completed is its current task
or an entry of its cleanup set; so once the destructor, which pushes the current task and
waits on every valid entry that has not completed, has returned, every task the loader
launched has completed.  Completion is taken to be lasting: a task seen completed by an
`Update` is completed at teardown. -/
theorem loader_tasks_tracked (loader : WaveAssetDataRef) (pipe : TaskPipe)
    (bs : List LoaderBlock) (cfinal : TaskId → Bool)
    (hlasting : ∀ b ∈ bs, ∀ t, b.completed t = true → cfinal t = true) :
    (∀ t ∈ ((⟨loader, pipe, []⟩ : LoaderRun).steps bs).launched, cfinal t = false →
      ((⟨loader, pipe, []⟩ : LoaderRun).steps bs).loader.Task = some t ∨
      some t ∈ ((⟨loader, pipe, []⟩ : LoaderRun).steps bs).loader.Cleanup) ∧
    (∀ t ∈ ((⟨loader, pipe, []⟩ : LoaderRun).steps bs).launched,
      completedAfterDestroy cfinal ((⟨loader, pipe, []⟩ : LoaderRun).steps bs).loader t =
        true) := by
  have key := LoaderRun_steps_tracked cfinal bs ⟨loader, pipe, []⟩ hlasting
    (by intro t ht; simp at ht)
  constructor
  · intro t ht hc
    rcases key t ht with h | h | h
    · exact Or.inl h
    · exact Or.inr h
    · rw [hc] at h; exact absurd h (by simp)
  · intro t ht
    unfold completedAfterDestroy
    cases hc : cfinal t with
    | true => rfl
    | false =>
      have hmem : some t ∈ ((⟨loader, pipe, []⟩ : LoaderRun).steps bs).loader.Cleanup ++
          [((⟨loader, pipe, []⟩ : LoaderRun).steps bs).loader.Task] := by
        rcases key t ht with h | h | h
        · rw [h]; simp
        · exact List.mem_append_left _ h
        · rw [hc] at h; exact absurd h (by simp)
      have : t ∈ WaveAssetDataRef.destroy cfinal
          ((⟨loader, pipe, []⟩ : LoaderRun).steps bs).loader := by
        unfold WaveAssetDataRef.destroy
        rw [List.mem_filterMap]
        exact ⟨some t, hmem, by simp [validAndRunning, hc]⟩
      simp [this]

/-- C18 (witness): two assets bound in turn to a fresh loader, no task completing before
teardown: both launched tasks are tracked, the first in the cleanup set, the second as
the current task, and both have completed when the destructor returns. -/
theorem loader_tasks_tracked_witness :
    twoAssetRun.launched = [0, 1] ∧ twoAssetRun.loader.Task = some 1 ∧
    twoAssetRun.loader.Cleanup = [some 0] ∧
    (∀ t ∈ twoAssetRun.launched, (fun _ => false) t = false →
      twoAssetRun.loader.Task = some t ∨ some t ∈ twoAssetRun.loader.Cleanup) ∧
    (∀ t ∈ twoAssetRun.launched,
      completedAfterDestroy (fun _ => false) twoAssetRun.loader t = true) :=
  ⟨by decide, by decide, by decide,
    loader_tasks_tracked ⟨"buf", 0, none, []⟩ [] _ (fun _ => false) (by
      intro b hb t ht
      simp only [List.mem_cons, List.mem_singleton, List.not_mem_nil, or_false] at hb
      rcases hb with h | h <;> rw [h] at ht <;> simp at ht)⟩

/-! ## Theorems: the tables share no key -/

theorem andThen_true (a b : Json → Option Bool) (p : Json) (h : andThen a b p = some true) :
    a p = some true ∧ b p = some true := by
  unfold andThen at h
  cases ha : a p with
  | none => simp [ha] at h
  | some x =>
    cases x with
    | false => simp [ha] at h
    | true => exact ⟨rfl, by simpa [ha] using h⟩

theorem IsIntParam_true (p : Json) (h : IsIntParam p = some true) :
    IsBoolParam p = some false := by
  unfold IsIntParam at h
  cases hb : IsBoolParam p with
  | none => simp [hb] at h
  | some x =>
    cases x with
    | false => rfl
    | true => simp [hb] at h

theorem IsFloatParam_true (p : Json) (h : IsFloatParam p = some true) :
    IsBoolParam p = some false ∧ IsIntParam p = some false := by
  unfold IsFloatParam at h
  cases hb : IsBoolParam p with
  | none => simp [hb] at h
  | some x =>
    cases x with
    | true => simp [hb] at h
    | false =>
      refine ⟨rfl, ?_⟩
      cases hi : IsIntParam p with
      | none => simp [hb, hi] at h
      | some y =>
        cases y with
        | false => rfl
        | true => simp [hb, hi] at h

theorem tables_no_common_key (W : Bool) (desc : Json) (f g : Json → Option Bool)
    (hd : DistinctIndices desc) (hex : ∀ p, ¬ (f p = some true ∧ g p = some true))
    (t1 t2 : ParamTable) (h1 : NumericParamsFiltered W desc f = some t1)
    (h2 : NumericParamsFiltered W desc g = some t2) (k : ParameterIndex) :
    ¬ (hasKey k t1 = true ∧ hasKey k t2 = true) := by
  rintro ⟨hk1, hk2⟩
  obtain ⟨e1, he1, hek1⟩ := (hasKey_iff k t1).mp hk1
  obtain ⟨e2, he2, hek2⟩ := (hasKey_iff k t2).mp hk2
  obtain ⟨ps, p, i, _, hps, hp, hpt, hpv, hfp, hpi, hei, _, _⟩ :=
    NumericParamsFiltered_entries W desc f t1 h1 e1 he1
  obtain ⟨ps2, q, j, _, hps2, hq, hqt, hqv, hgq, hqj, hej, _, _⟩ :=
    NumericParamsFiltered_entries W desc g t2 h2 e2 he2
  have hpsq : ps2 = ps := by
    rw [hps] at hps2
    exact (Option.some.inj hps2).symm
  rw [hpsq] at hq
  have hpq : p = q := hd ps p q i j hps hp hq hpt hqt hpv hqv hpi hqj (by rw [← hei, ← hej, hek1, hek2])
  subst hpq
  exact hex p ⟨hfp, hgq⟩

theorem hasKey_emplace {β : Type} (m : List (ParameterIndex × β)) (k1 k : ParameterIndex)
    (v : β) : hasKey k (emplace m k1 v) = (hasKey k m || k1 == k) := by
  unfold emplace
  by_cases h : hasKey k1 m = true
  · rw [if_pos h]
    by_cases hk : k1 = k
    · subst hk; simp [h]
    · simp [hk]
  · rw [if_neg h]
    simp [hasKey]

theorem hasKey_cellsOf {β : Type} (f : FRNBOMetasoundParam → β) (k : ParameterIndex) :
    ∀ (t : ParamTable) (m : List (ParameterIndex × β)),
      hasKey k (t.foldl (fun m e => emplace m e.1 (f e.2)) m) = (hasKey k m || hasKey k t) := by
  intro t
  induction t with
  | nil => intro m; simp [hasKey]
  | cons e rest ih =>
    intro m
    rw [List.foldl_cons, ih, hasKey_emplace]
    obtain ⟨k1, x⟩ := e
    rw [hasKey_cons, Bool.or_assoc]

theorem hasKey_cellsOf_eq {β : Type} (f : FRNBOMetasoundParam → β) (k : ParameterIndex)
    (t : ParamTable) : hasKey k (cellsOf f t) = hasKey k t := by
  unfold cellsOf
  rw [hasKey_cellsOf]
  simp [hasKey]

theorem bool_float_int_exclusive (d : Json → Option Bool) (p : Json) :
    ¬ (andThen d IsBoolParam p = some true ∧ andThen d IsFloatParam p = some true) ∧
    ¬ (andThen d IsBoolParam p = some true ∧ andThen d IsIntParam p = some true) ∧
    ¬ (andThen d IsFloatParam p = some true ∧ andThen d IsIntParam p = some true) := by
  refine ⟨?_, ?_, ?_⟩
  · rintro ⟨h1, h2⟩
    have hb := (andThen_true _ _ p h1).2
    have hf := (IsFloatParam_true p (andThen_true _ _ p h2).2).1
    rw [hb] at hf
    simp at hf
  · rintro ⟨h1, h2⟩
    have hb := (andThen_true _ _ p h1).2
    have hi := IsIntParam_true p (andThen_true _ _ p h2).2
    rw [hb] at hi
    simp at hi
  · rintro ⟨h1, h2⟩
    have hf := (IsFloatParam_true p (andThen_true _ _ p h1).2).2
    have hi := (andThen_true _ _ p h2).2
    rw [hi] at hf
    simp at hf

/-- C19: for a schema whose visible numeric parameters have pairwise distinct indices, no
index is a key of two of the bool-, float- and int-output tables, nor of two of the three
input tables; the output cells the constructor makes from the tables have the same keys,
so at most one of the three lookups of `handleParameterEvent` can find a given index. -/
theorem tables_disjoint (W : Bool) (desc : Json) (hd : DistinctIndices desc) :
    (∀ tb tf ti, OutputBoolParams W desc = some tb → OutputFloatParams W desc = some tf →
      OutputIntParams W desc = some ti → PairwiseDisjointKeys tb tf ti) ∧
    (∀ tb tf ti, InputBoolParams W desc = some tb → InputFloatParams W desc = some tf →
      InputIntParams W desc = some ti → PairwiseDisjointKeys tb tf ti) ∧
    (∀ tb tf ti (fb : FRNBOMetasoundParam → Bool) (ff : FRNBOMetasoundParam → ℚ)
      (fi : FRNBOMetasoundParam → Int),
      OutputBoolParams W desc = some tb → OutputFloatParams W desc = some tf →
      OutputIntParams W desc = some ti →
      PairwiseDisjointKeys (cellsOf fb tb) (cellsOf ff tf) (cellsOf fi ti)) := by
  have hout : ∀ tb tf ti, OutputBoolParams W desc = some tb →
      OutputFloatParams W desc = some tf → OutputIntParams W desc = some ti →
      PairwiseDisjointKeys tb tf ti := by
    intro tb tf ti hb hf hi k
    exact ⟨tables_no_common_key W desc _ _ hd
        (fun p => (bool_float_int_exclusive IsOutputParam p).1) tb tf hb hf k,
      tables_no_common_key W desc _ _ hd
        (fun p => (bool_float_int_exclusive IsOutputParam p).2.1) tb ti hb hi k,
      tables_no_common_key W desc _ _ hd
        (fun p => (bool_float_int_exclusive IsOutputParam p).2.2) tf ti hf hi k⟩
  refine ⟨hout, ?_, ?_⟩
  · intro tb tf ti hb hf hi k
    exact ⟨tables_no_common_key W desc _ _ hd
        (fun p => (bool_float_int_exclusive IsInputParam p).1) tb tf hb hf k,
      tables_no_common_key W desc _ _ hd
        (fun p => (bool_float_int_exclusive IsInputParam p).2.1) tb ti hb hi k,
      tables_no_common_key W desc _ _ hd
        (fun p => (bool_float_int_exclusive IsInputParam p).2.2) tf ti hf hi k⟩
  · intro tb tf ti fb ff fi hb hf hi k
    have h := hout tb tf ti hb hf hi k
    rw [hasKey_cellsOf_eq, hasKey_cellsOf_eq, hasKey_cellsOf_eq]
    exact h

theorem schemaBoolAndFloat_outputBool :
    OutputBoolParams true schemaBoolAndFloat = some [(0, ⟨"mute", 0, "mute", "mute"⟩)] := by
  simp [OutputBoolParams, NumericParamsFiltered, NumericParams, schemaBoolAndFloat, Json.lookup,
    Json.find, items, NumericParamsLoop, NumericParamsStep, typeIsNumber, markedHidden,
    paramFields, filteredCallback, getString, getBool, getInt, getNum, Json.contains, wrapInt32,
    toParameterIndex, emplace, hasKey, FRNBOMetasoundParam.new, andThen, IsOutputParam,
    IsBoolParam, is_object, is_boolean, is_number, idx, f32EqZero, f32EqOne]

theorem schemaBoolAndFloat_outputFloat :
    OutputFloatParams true schemaBoolAndFloat = some [(1, ⟨"gain", 1, "gain", "gain"⟩)] := by
  simp [OutputFloatParams, NumericParamsFiltered, NumericParams, schemaBoolAndFloat,
    Json.lookup, Json.find, items, NumericParamsLoop, NumericParamsStep, typeIsNumber,
    markedHidden, paramFields, filteredCallback, getString, getBool, getInt, getNum,
    Json.contains, wrapInt32, toParameterIndex, emplace, hasKey, FRNBOMetasoundParam.new,
    andThen, IsOutputParam, IsBoolParam, IsFloatParam, IsIntParam, is_object, is_boolean,
    is_number, idx, f32EqZero, f32EqOne]

theorem schemaBoolAndFloat_outputInt :
    OutputIntParams true schemaBoolAndFloat = some [] := by
  simp [OutputIntParams, NumericParamsFiltered, NumericParams, schemaBoolAndFloat, Json.lookup,
    Json.find, items, NumericParamsLoop, NumericParamsStep, typeIsNumber, markedHidden,
    paramFields, filteredCallback, getString, getBool, getInt, getNum, Json.contains, wrapInt32,
    toParameterIndex, emplace, hasKey, FRNBOMetasoundParam.new, andThen, IsOutputParam,
    IsBoolParam, IsFloatParam, IsIntParam, is_object, is_boolean, is_number, idx, f32EqZero,
    f32EqOne]

theorem schemaBoolAndFloat_distinct : DistinctIndices schemaBoolAndFloat := by
  intro ps p q i j hps hp hq _ _ _ _ hi hj hij
  have hps2 : schemaBoolAndFloat.lookup "parameters" = some (arr _) := rfl
  rw [hps2] at hps
  have hps3 := (Option.some.inj hps).symm
  subst hps3
  simp only [items, List.mem_cons, List.mem_singleton, List.not_mem_nil, or_false] at hp hq
  rcases hp with hp | hp <;> rcases hq with hq | hq <;> subst hp <;> subst hq
  · rfl
  · simp [Json.lookup, Json.find, getInt, wrapInt32] at hi hj
    subst hi; subst hj
    simp [toParameterIndex] at hij
  · simp [Json.lookup, Json.find, getInt, wrapInt32] at hi hj
    subst hi; subst hj
    simp [toParameterIndex] at hij
  · rfl

/-- C19 (witness): a schema with a boolean parameter at index 0 and a float parameter at
index 1, both outputs: the bool table is keyed 0, the float table 1, the int table is
empty, and no key is shared. -/
theorem tables_disjoint_witness :
    OutputBoolParams true schemaBoolAndFloat = some [(0, ⟨"mute", 0, "mute", "mute"⟩)] ∧
    OutputFloatParams true schemaBoolAndFloat = some [(1, ⟨"gain", 1, "gain", "gain"⟩)] ∧
    OutputIntParams true schemaBoolAndFloat = some [] ∧
    PairwiseDisjointKeys [((0 : ParameterIndex), (⟨"mute", 0, "mute", "mute"⟩ : FRNBOMetasoundParam))]
      [((1 : ParameterIndex), (⟨"gain", 1, "gain", "gain"⟩ : FRNBOMetasoundParam))]
      ([] : ParamTable) :=
  ⟨schemaBoolAndFloat_outputBool, schemaBoolAndFloat_outputFloat, schemaBoolAndFloat_outputInt,
    (tables_disjoint true schemaBoolAndFloat schemaBoolAndFloat_distinct).1 _ _ _
      schemaBoolAndFloat_outputBool schemaBoolAndFloat_outputFloat
      schemaBoolAndFloat_outputInt⟩

theorem dataRefSlots_indices (W : Bool) (desc : Json) (l : List (Nat × FRNBOMetasoundParam))
    (h : dataRefSlots W desc = some l) : l.map Prod.fst = List.range l.length := by
  unfold dataRefSlots at h
  cases hd : DataRef W desc with
  | none => simp [hd] at h
  | some ps =>
    simp only [hd, Option.map_some', Option.some.injEq] at h
    rw [← h, List.enum_map_fst, List.enum_length]

/-- C20 (the code at the failing input): on a schema declaring the unsupported reference
`table` before the supported reference `loop`, the filtered list holds `loop` alone and
the constructor uses engine slot 0 for it, while `loop` stands at position 1 among the
declared references; with the engine naming its slots after the declared references, in
order, the loader bound to the input `loop` is given the id `table`. -/
theorem dataRefSlots_unsupported_first :
    dataRefSlots true schemaUnsupportedFirst = some [(0, ⟨"loop", 0, "loop", "loop"⟩)] ∧
    keptPositions [obj [("id", str "table"), ("tag", str "data")],
      obj [("id", str "loop"), ("tag", str "buffer~")]] = [1] ∧
    newDataRefParams true schemaUnsupportedFirst (declaredDataRefId schemaUnsupportedFirst) =
      some [("loop", ⟨"table", 0, none, []⟩)] := by
  refine ⟨rfl, by decide, rfl⟩

end RNBOMetasound
